import Mathlib

/-!
Verification of the SGP4-style orbit propagator (TLE parsing, Brouwer
mean-motion correction, Kepler solving, ECI state-vector output).

The parsing layer is embedded exactly over `ℚ` (decimal strings denote
exact rationals; the IEEE `inf`/`nan` keyword forms accepted by the Rust
float parser are recognised by `isSignedSpecial` and lie outside the
real-valued model).  The numeric layer (mean-element correction and
propagation) is embedded over `ℝ`; `f64` literals denote their exact
decimal values.  Rust's `%` on floats (remainder with the dividend's
sign) is modelled by `rustRem`.  A separate model `FV` with IEEE special
values (NaN, signed infinities, exact reals otherwise; signed zero is
not distinguished) is used for the claims about NaN behaviour of the
Kepler loop.
-/

/-- Unicode white space, as accepted by Rust `str::trim`
(the `White_Space` property). -/
def isRustWS (c : Char) : Bool :=
  c.toNat = 0x09 || c.toNat = 0x0A || c.toNat = 0x0B || c.toNat = 0x0C || c.toNat = 0x0D ||
  c.toNat = 0x20 || c.toNat = 0x85 || c.toNat = 0xA0 || c.toNat = 0x1680 ||
  (0x2000 ≤ c.toNat && c.toNat ≤ 0x200A) || c.toNat = 0x2028 || c.toNat = 0x2029 ||
  c.toNat = 0x202F || c.toNat = 0x205F || c.toNat = 0x3000

/-- Rust `str::trim`: drop white space from both ends. -/
def rustTrim (cs : List Char) : List Char :=
  ((cs.dropWhile isRustWS).reverse.dropWhile isRustWS).reverse

/-- Drop a prefix of exactly `n` UTF-8 bytes from a character list;
`none` if `n` overruns the string or falls inside a character
(Rust `str::get` boundary check). -/
def dropB : List Char → Nat → Option (List Char)
  | cs, 0 => some cs
  | [], _ + 1 => none
  | c :: cs, n + 1 =>
      if c.utf8Size ≤ n + 1 then dropB cs (n + 1 - c.utf8Size) else none

/-- Take a prefix of exactly `n` UTF-8 bytes from a character list;
`none` if `n` overruns the string or falls inside a character. -/
def takeB : List Char → Nat → Option (List Char)
  | _, 0 => some []
  | [], _ + 1 => none
  | c :: cs, n + 1 =>
      if c.utf8Size ≤ n + 1 then
        match takeB cs (n + 1 - c.utf8Size) with
        | some ds => some (c :: ds)
        | none => none
      else none

/-- Rust `line.get(a..a+len)`: the byte slice of a string, `none` when out
of bounds or not on character boundaries. -/
def rustSliceBytes (line : String) (a len : Nat) : Option (List Char) :=
  match dropB line.data a with
  | some t => takeB t len
  | none => none

/-- Rust `str::replace` with a single-character pattern. -/
def rustReplace (p : Char) (sub : List Char) : List Char → List Char
  | [] => []
  | c :: cs => (if c = p then sub else [c]) ++ rustReplace p sub cs

/-- Decimal value of a digit string (as consumed left to right). -/
def digitsToNat (ds : List Char) : Nat :=
  ds.foldl (fun a c => 10 * a + (c.toNat - 48)) 0

/-- Mantissa of the Rust `f64` grammar: `Digits [. Digits?] | . Digits`;
returns the scaled integer value of the consumed digits, the number of
fractional digits, and the unconsumed remainder (so the mantissa's value
is `scaled / 10 ^ fracLen`). -/
def parseMantissaZ (cs : List Char) : Option (ℕ × ℕ × List Char) :=
  let ip := cs.takeWhile Char.isDigit
  let r1 := cs.dropWhile Char.isDigit
  match r1 with
  | '.' :: r2 =>
      let fp := r2.takeWhile Char.isDigit
      let r3 := r2.dropWhile Char.isDigit
      if ip.isEmpty && fp.isEmpty then none
      else some (digitsToNat ip * 10 ^ fp.length + digitsToNat fp, fp.length, r3)
  | _ => if ip.isEmpty then none else some (digitsToNat ip, 0, r1)

/-- Exponent part of the Rust `f64` grammar (after `e`/`E`):
an optional sign followed by at least one digit, consuming everything. -/
def parseExpDigits : List Char → Option ℤ
  | '+' :: r => if !r.isEmpty && r.all Char.isDigit then some (digitsToNat r) else none
  | '-' :: r => if !r.isEmpty && r.all Char.isDigit then some (-(digitsToNat r : ℤ)) else none
  | r => if !r.isEmpty && r.all Char.isDigit then some (digitsToNat r) else none

/-- Unsigned finite number of the Rust `f64` grammar: mantissa with
optional `e`/`E` exponent; the value is `fst · 10 ^ snd`. -/
def parseUnsignedZ (cs : List Char) : Option (ℕ × ℤ) :=
  match parseMantissaZ cs with
  | none => none
  | some (m, fl, rest) =>
      match rest with
      | [] => some (m, -(fl : ℤ))
      | e :: r =>
          if e = 'e' || e = 'E' then
            match parseExpDigits r with
            | some z => some (m, z - fl)
            | none => none
          else none

/-- Finite part of the Rust `f64` grammar: optional sign, then an
unsigned finite number; the value is `fst · 10 ^ snd`. -/
def parseFiniteZ : List Char → Option (ℤ × ℤ)
  | '+' :: r => (parseUnsignedZ r).map fun p => ((p.1 : ℤ), p.2)
  | '-' :: r => (parseUnsignedZ r).map fun p => (-(p.1 : ℤ), p.2)
  | r => (parseUnsignedZ r).map fun p => ((p.1 : ℤ), p.2)

/-- Exact rational value of a finite number of the Rust `f64` grammar. -/
def parseFinite (cs : List Char) : Option ℚ :=
  (parseFiniteZ cs).map fun p => (p.1 : ℚ) * 10 ^ p.2

/-- [optional sign]`inf`/`infinity`/`nan` (ASCII case-insensitive): the
non-finite inputs the Rust `f64` parser accepts, which lie outside the
real-valued model. -/
def isSignedSpecial (cs : List Char) : Bool :=
  let body := match cs with
    | '+' :: r => r
    | '-' :: r => r
    | r => r
  let l := body.map Char.toLower
  l = ['i', 'n', 'f'] || l = ['i', 'n', 'f', 'i', 'n', 'i', 't', 'y'] ||
    l = ['n', 'a', 'n']

/-- The processing `parse_real` applies to the extracted column before
numeric parsing: trim, then rewrite every `-` to `e-`, then every `+`
to `e+`. -/
def signRewrite (cs : List Char) : List Char :=
  rustReplace '+' ['e', '+'] (rustReplace '-' ['e', '-'] (rustTrim cs))

/-- `parse_real` from the source: slice the 1-based columns
`[start, start+len)` (bytes), defaulting to `"0"` when absent, trim,
rewrite signs, parse as `f64`, defaulting to `0.0` on failure.  The
model is real-valued: on the `inf`/`infinity`/`nan` keyword forms
(recognised by `isSignedSpecial`) the Rust parse succeeds with a
non-finite value, so statements about the failure default carry the
guard `isSignedSpecial (signRewrite raw) = false`; the Rust parse
fails exactly when both `parseFinite` and `isSignedSpecial` reject. -/
def parse_real (line : String) (start len : Nat) : ℚ :=
  let raw := (rustSliceBytes line (start - 1) len).getD ['0']
  (parseFinite (signRewrite raw)).getD 0

/-- A two-line element set, as in the source. -/
structure Tle where
  line1 : String
  line2 : String

/-- A Cartesian 3-vector of reals (a `[f64; 3]` in the source). -/
structure Vec3 where
  x : ℝ
  y : ℝ
  z : ℝ

/-- Euclidean magnitude of a 3-vector. -/
noncomputable def Vec3.mag (v : Vec3) : ℝ :=
  Real.sqrt (v.x ^ 2 + v.y ^ 2 + v.z ^ 2)

/-- Position/velocity state, as in the source. -/
structure StateVector where
  position : Vec3
  velocity : Vec3

/-- Orbital elements, as in the source (the `bool` flag becomes a
proposition in the real-valued model). -/
structure OrbitalElements where
  inclination : ℝ
  raan : ℝ
  eccentricity : ℝ
  arg_perigee : ℝ
  mean_anomaly : ℝ
  mean_motion : ℝ
  bstar : ℝ
  deep_space : Prop

noncomputable def TWOPI : ℝ := 2.0 * Real.pi

noncomputable def XKE : ℝ := 0.0743669161

noncomputable def CK2 : ℝ := 5.413080e-4

noncomputable def XMNPDA : ℝ := 1440.0

noncomputable def TOTHIRD : ℝ := 2.0 / 3.0

noncomputable def XKMPER : ℝ := 6378.135

noncomputable def radians (deg : ℝ) : ℝ := deg * Real.pi / 180.0

/-- `convert_satellite_data` from the source: fixed-column parsing of the
two lines, then the Brouwer mean-motion correction.  (The source also
parses epoch and mean-motion-derivative columns into unused local
variables; they do not reach the result.) -/
noncomputable def convert_satellite_data (tle : Tle) : OrbitalElements :=
  let line1 := tle.line1
  let line2 := tle.line2
  let bstar : ℝ :=
    (parse_real line1 54 6 : ℝ) * 1e-5 * (10.0 : ℝ) ^ ((parse_real line1 60 2 : ℚ) : ℝ)
  let inclination : ℝ := radians (parse_real line2 9 8 : ℚ)
  let raan : ℝ := radians (parse_real line2 18 8 : ℚ)
  let eccentricity : ℝ := ((parse_real line2 27 7 : ℚ) : ℝ) * 1e-7
  let arg_perigee : ℝ := radians (parse_real line2 35 8 : ℚ)
  let mean_anomaly : ℝ := radians (parse_real line2 44 8 : ℚ)
  let mean_motion : ℝ := ((parse_real line2 53 11 : ℚ) : ℝ)
  let xno : ℝ := mean_motion * TWOPI / XMNPDA
  let a1 : ℝ := (XKE / xno) ^ TOTHIRD
  let temp : ℝ :=
    1.5 * CK2 * (3.0 * Real.cos inclination ^ 2 - 1.0) /
      ((1.0 - eccentricity ^ 2) ^ (1.5 : ℝ))
  let del1 : ℝ := temp / (a1 * a1)
  let ao : ℝ := a1 * (1.0 - del1 * (0.5 * TOTHIRD + del1 * (1.0 + 134.0 / 81.0 * del1)))
  let delo : ℝ := temp / (ao * ao)
  let xnodp : ℝ := xno / (1.0 + delo)
  { inclination := inclination
    raan := raan
    eccentricity := eccentricity
    arg_perigee := arg_perigee
    mean_anomaly := mean_anomaly
    mean_motion := xnodp
    bstar := bstar
    deep_space := TWOPI / xnodp ≥ 225.0 }

/-- Truncation toward zero, as an integer-valued real. -/
noncomputable def rtrunc (t : ℝ) : ℝ :=
  if 0 ≤ t then (⌊t⌋ : ℝ) else (⌈t⌉ : ℝ)

/-- Rust's `%` on `f64` (for finite operands): the remainder
`x - y * trunc (x / y)`, which keeps the sign of the dividend `x`. -/
noncomputable def rustRem (x y : ℝ) : ℝ :=
  x - y * rtrunc (x / y)

/-- The mean anomaly `sgp4` computes and hands to the Kepler solver:
`(elements.mean_anomaly + elements.mean_motion * tsince) % TWOPI`. -/
noncomputable def sgp4_mean_anomaly (tsince : ℝ) (elements : OrbitalElements) : ℝ :=
  rustRem (elements.mean_anomaly + elements.mean_motion * tsince) TWOPI

/-- One Newton step of `solve_kepler`: the correction
`delta = f / f_prime` computed at the current iterate. -/
noncomputable def keplerDelta (mean_anomaly ecc e : ℝ) : ℝ :=
  (e - ecc * Real.sin e - mean_anomaly) / (1.0 - ecc * Real.cos e)

/-- The sequence of iterates of `solve_kepler`'s loop, starting from the
initial estimate `e = mean_anomaly`. -/
noncomputable def keplerE (mean_anomaly ecc : ℝ) : ℕ → ℝ
  | 0 => mean_anomaly
  | n + 1 => keplerE mean_anomaly ecc n - keplerDelta mean_anomaly ecc (keplerE mean_anomaly ecc n)

open scoped Classical in
/-- `solve_kepler` from the source: Newton–Raphson on
`f e = e - ecc·sin e - mean_anomaly`, with `delta` initialised to `1.0`
and the loop running while `|delta| > tol`.  In the real-valued model the
result is the iterate after the first step whose correction is within
tolerance; when the loop never exits the value is unspecified (the Rust
program does not terminate there). -/
noncomputable def solve_kepler (mean_anomaly ecc tol : ℝ) : ℝ :=
  if |(1.0 : ℝ)| > tol then
    if h : ∃ n, |keplerDelta mean_anomaly ecc (keplerE mean_anomaly ecc n)| ≤ tol then
      keplerE mean_anomaly ecc (Nat.find h + 1)
    else 0
  else mean_anomaly

/-- `f64::atan2`: `atan2 y x` is the argument of the point `(x, y)`. -/
noncomputable def atan2 (y x : ℝ) : ℝ :=
  Complex.arg { re := x, im := y }

/-- `sgp4` from the source: propagate `elements` by `tsince` minutes. -/
noncomputable def sgp4 (tsince : ℝ) (elements : OrbitalElements) : StateVector :=
  let a : ℝ := (XKE / elements.mean_motion) ^ ((2.0 : ℝ) / 3.0)
  let e : ℝ := elements.eccentricity
  let i : ℝ := elements.inclination
  let omega : ℝ := elements.arg_perigee
  let raan : ℝ := elements.raan
  let m : ℝ := sgp4_mean_anomaly tsince elements
  let e_anomaly : ℝ := solve_kepler m e 1e-8
  let v : ℝ := 2.0 * atan2 (Real.sqrt (1.0 + e) * Real.sin (e_anomaly / 2.0))
    (Real.sqrt (1.0 - e) * Real.cos (e_anomaly / 2.0))
  let r : ℝ := a * (1.0 - e * Real.cos e_anomaly)
  let x_orb : ℝ := r * Real.cos v
  let y_orb : ℝ := r * Real.sin v
  let p : ℝ := a * (1.0 - e * e)
  let r_dot : ℝ := XKE * Real.sqrt a * e * Real.sin e_anomaly / r
  let r_fi_dot : ℝ := XKE * Real.sqrt p / (r * r)
  let vx_orb : ℝ := r_dot * Real.cos v - r * r_fi_dot * Real.sin v
  let vy_orb : ℝ := r_dot * Real.sin v + r * r_fi_dot * Real.cos v
  let cos_omega : ℝ := Real.cos omega
  let sin_omega : ℝ := Real.sin omega
  let cos_raan : ℝ := Real.cos raan
  let sin_raan : ℝ := Real.sin raan
  let cos_i : ℝ := Real.cos i
  let sin_i : ℝ := Real.sin i
  let x : ℝ := x_orb * (cos_raan * cos_omega - sin_raan * sin_omega * cos_i)
    - y_orb * (cos_raan * sin_omega + sin_raan * cos_omega * cos_i)
  let y : ℝ := x_orb * (sin_raan * cos_omega + cos_raan * sin_omega * cos_i)
    - y_orb * (sin_raan * sin_omega - cos_raan * cos_omega * cos_i)
  let z : ℝ := x_orb * sin_omega * sin_i + y_orb * cos_omega * sin_i
  let vx : ℝ := vx_orb * (cos_raan * cos_omega - sin_raan * sin_omega * cos_i)
    - vy_orb * (cos_raan * sin_omega + sin_raan * cos_omega * cos_i)
  let vy : ℝ := vx_orb * (sin_raan * cos_omega + cos_raan * sin_omega * cos_i)
    - vy_orb * (sin_raan * sin_omega - cos_raan * cos_omega * cos_i)
  let vz : ℝ := vx_orb * sin_omega * sin_i + vy_orb * cos_omega * sin_i
  { position := { x := x * XKMPER, y := y * XKMPER, z := z * XKMPER }
    velocity := { x := vx * XKMPER / 60.0, y := vy * XKMPER / 60.0, z := vz * XKMPER / 60.0 } }

/-- The test fixture's ISS-like element set. -/
def issTle : Tle :=
  { line1 := "1 25544U 98067A   21135.57634567  .00002418  00000-0  50843-4 0  9993"
    line2 := "2 25544  51.6443 126.6639 0006738  34.7758 325.3542 15.48913328283873" }

/-- The corrected (Brouwer) mean motion as the specification words it:
`xno = meanMotionRevPerDay·2π/1440`, `a1 = (XKE/xno)^(2/3)`,
`temp = 1.5·CK2·(3·cos²i − 1)/(1 − e²)^1.5`, `del1 = temp/a1²`, the
refined `ao`, `delo = temp/ao²`, and `xnodp = xno/(1 + delo)`. -/
noncomputable def brouwerXnodp (mmRevPerDay incl ecc : ℝ) : ℝ :=
  let xno : ℝ := mmRevPerDay * (2.0 * Real.pi) / 1440.0
  let a1 : ℝ := (XKE / xno) ^ ((2.0 : ℝ) / 3.0)
  let temp : ℝ :=
    1.5 * 5.413080e-4 * (3.0 * Real.cos incl ^ 2 - 1.0) / ((1.0 - ecc ^ 2) ^ (1.5 : ℝ))
  let del1 : ℝ := temp / (a1 * a1)
  let ao : ℝ := a1 * (1.0 - del1 * (0.5 * (2.0 / 3.0) + del1 * (1.0 + 134.0 / 81.0 * del1)))
  let delo : ℝ := temp / (ao * ao)
  xno / (1.0 + delo)

/-- An `f64` value in the model with IEEE special values: an exact real,
a signed infinity, or NaN (signed zero is not distinguished). -/
inductive FV : Type
  | fin (x : ℝ)
  | pinf
  | ninf
  | nan

/-- IEEE subtraction on `FV`. -/
noncomputable def fvSub : FV → FV → FV
  | FV.fin a, FV.fin b => FV.fin (a - b)
  | FV.fin _, FV.pinf => FV.ninf
  | FV.fin _, FV.ninf => FV.pinf
  | FV.pinf, FV.fin _ => FV.pinf
  | FV.ninf, FV.fin _ => FV.ninf
  | FV.pinf, FV.ninf => FV.pinf
  | FV.ninf, FV.pinf => FV.ninf
  | FV.pinf, FV.pinf => FV.nan
  | FV.ninf, FV.ninf => FV.nan
  | _, _ => FV.nan

open scoped Classical in
/-- IEEE multiplication on `FV` (zero times infinity is NaN). -/
noncomputable def fvMul : FV → FV → FV
  | FV.fin a, FV.fin b => FV.fin (a * b)
  | FV.fin a, FV.pinf => if a = 0 then FV.nan else if 0 < a then FV.pinf else FV.ninf
  | FV.fin a, FV.ninf => if a = 0 then FV.nan else if 0 < a then FV.ninf else FV.pinf
  | FV.pinf, FV.fin b => if b = 0 then FV.nan else if 0 < b then FV.pinf else FV.ninf
  | FV.ninf, FV.fin b => if b = 0 then FV.nan else if 0 < b then FV.ninf else FV.pinf
  | FV.pinf, FV.pinf => FV.pinf
  | FV.pinf, FV.ninf => FV.ninf
  | FV.ninf, FV.pinf => FV.ninf
  | FV.ninf, FV.ninf => FV.pinf
  | _, _ => FV.nan

open scoped Classical in
/-- IEEE division on `FV` (with unsigned zero: `0/0` is NaN, a nonzero
finite over zero is an infinity carrying the dividend's sign). -/
noncomputable def fvDiv : FV → FV → FV
  | FV.fin a, FV.fin b =>
      if b = 0 then (if a = 0 then FV.nan else if 0 < a then FV.pinf else FV.ninf)
      else FV.fin (a / b)
  | FV.fin _, FV.pinf => FV.fin 0
  | FV.fin _, FV.ninf => FV.fin 0
  | FV.pinf, FV.fin b => if 0 ≤ b then FV.pinf else FV.ninf
  | FV.ninf, FV.fin b => if 0 ≤ b then FV.ninf else FV.pinf
  | _, _ => FV.nan

/-- IEEE sine on `FV` (NaN on infinities and NaN). -/
noncomputable def fvSin : FV → FV
  | FV.fin x => FV.fin (Real.sin x)
  | _ => FV.nan

/-- IEEE cosine on `FV` (NaN on infinities and NaN). -/
noncomputable def fvCos : FV → FV
  | FV.fin x => FV.fin (Real.cos x)
  | _ => FV.nan

/-- IEEE absolute value on `FV`. -/
noncomputable def fvAbs : FV → FV
  | FV.fin x => FV.fin |x|
  | FV.nan => FV.nan
  | _ => FV.pinf

/-- IEEE `>` on `FV`: false whenever either operand is NaN. -/
def fvGt : FV → FV → Prop
  | FV.nan, _ => False
  | _, FV.nan => False
  | FV.fin a, FV.fin b => b < a
  | FV.pinf, FV.pinf => False
  | FV.pinf, _ => True
  | FV.fin _, FV.ninf => True
  | _, _ => False

/-- `f = e - ecc·sin e - mean_anomaly` of the Kepler loop, on `FV`. -/
noncomputable def fvF (m ecc : ℝ) (e : FV) : FV :=
  fvSub (fvSub e (fvMul (FV.fin ecc) (fvSin e))) (FV.fin m)

/-- `f_prime = 1 - ecc·cos e` of the Kepler loop, on `FV`. -/
noncomputable def fvFp (ecc : ℝ) (e : FV) : FV :=
  fvSub (FV.fin 1.0) (fvMul (FV.fin ecc) (fvCos e))

/-- The iterates of `solve_kepler`'s loop on `FV`. -/
noncomputable def fvE (m ecc : ℝ) : ℕ → FV
  | 0 => FV.fin m
  | n + 1 =>
      let e := fvE m ecc n
      fvSub e (fvDiv (fvF m ecc e) (fvFp ecc e))

/-- The Newton correction `delta` computed in iteration `n` of the loop
(at the iterate `fvE m ecc n`), on `FV`. -/
noncomputable def fvD (m ecc : ℝ) (n : ℕ) : FV :=
  fvDiv (fvF m ecc (fvE m ecc n)) (fvFp ecc (fvE m ecc n))

open scoped Classical in
/-- `solve_kepler` on the `FV` model: `delta` starts at `1.0`, the loop
runs while `|delta| > tol` (false for a NaN `delta`, by IEEE comparison),
and the result is the iterate after the first failing guard. -/
noncomputable def solve_kepler_fv (m ecc tol : ℝ) : FV :=
  if fvGt (fvAbs (FV.fin 1.0)) (FV.fin tol) then
    if h : ∃ n, ¬ fvGt (fvAbs (fvD m ecc n)) (FV.fin tol) then fvE m ecc (Nat.find h + 1)
    else FV.fin 0
  else FV.fin m

/-- Partial sum of the cosine series: `Σ_{j<k} (-1)^j r^(2j)/(2j)!`. -/
noncomputable def cosSum (r : ℝ) (k : ℕ) : ℝ :=
  ∑ j ∈ Finset.range k, (-1 : ℝ) ^ j * r ^ (2 * j) / (Nat.factorial (2 * j) : ℝ)

/-- Partial sum of the sine series: `Σ_{j<k} (-1)^j r^(2j+1)/(2j+1)!`. -/
noncomputable def sinSum (r : ℝ) (k : ℕ) : ℝ :=
  ∑ j ∈ Finset.range k, (-1 : ℝ) ^ j * r ^ (2 * j + 1) / (Nat.factorial (2 * j + 1) : ℝ)

lemma TWOPI_pos : 0 < TWOPI := by
  have := Real.pi_pos
  unfold TWOPI
  nlinarith

lemma one_lt_TWOPI : 1 < TWOPI := by
  have := Real.pi_gt_three
  unfold TWOPI
  nlinarith

/-- For a nonnegative dividend and positive divisor, `rustRem` lands in
`[0, y)`. -/
lemma rustRem_mem_Ico {x y : ℝ} (hy : 0 < y) (hx : 0 ≤ x) :
    0 ≤ rustRem x y ∧ rustRem x y < y := by
  have ht : 0 ≤ x / y := div_nonneg hx hy.le
  have hxy : y * (x / y) = x := by
    field_simp
  have hrem : rustRem x y = y * Int.fract (x / y) := by
    unfold rustRem rtrunc
    rw [if_pos ht, Int.fract, mul_sub, hxy]
  constructor
  · rw [hrem]
    exact mul_nonneg hy.le (Int.fract_nonneg _)
  · rw [hrem]
    have := Int.fract_lt_one (x / y)
    nlinarith

/-- For a positive divisor, `rustRem` always lands in `(-y, y)`. -/
lemma rustRem_mem_Ioo {x y : ℝ} (hy : 0 < y) :
    -y < rustRem x y ∧ rustRem x y < y := by
  by_cases ht : 0 ≤ x / y
  · have hx : 0 ≤ x := by
      by_contra hneg
      push_neg at hneg
      have : x / y < 0 := div_neg_of_neg_of_pos hneg hy
      linarith
    have h := rustRem_mem_Ico hy hx
    constructor <;> nlinarith [h.1, h.2]
  · push_neg at ht
    have hceil : rtrunc (x / y) = (⌈x / y⌉ : ℝ) := by
      unfold rtrunc
      rw [if_neg (not_le.mpr ht)]
    have h1 : x / y ≤ (⌈x / y⌉ : ℝ) := Int.le_ceil _
    have h2 : (⌈x / y⌉ : ℝ) < x / y + 1 := Int.ceil_lt_add_one _
    have hxy : y * (x / y) = x := by
      field_simp
    unfold rustRem
    rw [hceil]
    constructor <;> nlinarith

/-- C1 counterexample input: at `mean_anomaly = 0`, `mean_motion = 1`,
`tsince = -1` the sum is `-1` and Rust's `%` returns `-1`. -/
lemma sgp4_mean_anomaly_neg_example :
    sgp4_mean_anomaly (-1) (OrbitalElements.mk 0 0 0 0 0 1 0 False) = -1 := by
  unfold sgp4_mean_anomaly rustRem
  have hpos : 0 < TWOPI := TWOPI_pos
  have h1 : 1 < TWOPI := one_lt_TWOPI
  have harg : (0 : ℝ) + 1 * (-1) = -1 := by norm_num
  have ht : (-1 : ℝ) / TWOPI < 0 := div_neg_of_neg_of_pos (by norm_num) hpos
  have hgt : (-1 : ℝ) < -1 / TWOPI := by
    rw [neg_div]
    have : 1 / TWOPI < 1 := by
      rw [div_lt_one hpos]
      exact h1
    linarith
  have hceil : ⌈(-1 : ℝ) / TWOPI⌉ = 0 := by
    rw [Int.ceil_eq_zero_iff]
    constructor
    · exact hgt
    · exact ht.le
  show (0 : ℝ) + 1 * (-1) - TWOPI * rtrunc ((0 + 1 * (-1)) / TWOPI) = -1
  rw [harg]
  unfold rtrunc
  rw [if_neg (not_le.mpr ht), hceil]
  norm_num

/-- C1 (corrected).  The mean anomaly `sgp4` passes to the Kepler solver
always lies in `(-2π, 2π)`, and lies in `[0, 2π)` exactly on the inputs
whose sum `mean_anomaly + mean_motion·tsince` is nonnegative: Rust's `%`
is a remainder that keeps the dividend's sign, not a mathematical
modulo. -/
theorem c1_mean_anomaly_interval (elements : OrbitalElements) (tsince : ℝ) :
    (-TWOPI < sgp4_mean_anomaly tsince elements ∧ sgp4_mean_anomaly tsince elements < TWOPI) ∧
      (0 ≤ elements.mean_anomaly + elements.mean_motion * tsince →
        0 ≤ sgp4_mean_anomaly tsince elements ∧ sgp4_mean_anomaly tsince elements < TWOPI) := by
  refine ⟨rustRem_mem_Ioo TWOPI_pos, fun hx => ?_⟩
  exact rustRem_mem_Ico TWOPI_pos hx

/-- C1 witness: at `mean_anomaly = 1`, `mean_motion = 0`, `tsince = 0`
the sum is nonnegative and the computed mean anomaly is in `[0, 2π)`. -/
theorem c1_mean_anomaly_interval_witness :
    0 ≤ (OrbitalElements.mk 0 0 0 0 1 0 0 False).mean_anomaly +
        (OrbitalElements.mk 0 0 0 0 1 0 0 False).mean_motion * 0 ∧
      (0 ≤ sgp4_mean_anomaly 0 (OrbitalElements.mk 0 0 0 0 1 0 0 False) ∧
        sgp4_mean_anomaly 0 (OrbitalElements.mk 0 0 0 0 1 0 0 False) < TWOPI) := by
  have hsum : (0 : ℝ) ≤ (OrbitalElements.mk 0 0 0 0 1 0 0 False).mean_anomaly +
      (OrbitalElements.mk 0 0 0 0 1 0 0 False).mean_motion * 0 := by
    show (0 : ℝ) ≤ 1 + 0 * 0
    norm_num
  exact ⟨hsum, (c1_mean_anomaly_interval (OrbitalElements.mk 0 0 0 0 1 0 0 False) 0).2 hsum⟩

/-- C1 counterexample: for the element set with `mean_anomaly = 0`,
`mean_motion = 1` and `tsince = -1`, the mean anomaly passed to the
solver is `-1`, outside `[0, 2π)`. -/
theorem c1_counterexample :
    ¬ (0 ≤ sgp4_mean_anomaly (-1) (OrbitalElements.mk 0 0 0 0 0 1 0 False) ∧
        sgp4_mean_anomaly (-1) (OrbitalElements.mk 0 0 0 0 0 1 0 False) < TWOPI) := by
  rw [sgp4_mean_anomaly_neg_example]
  intro h
  linarith [h.1]

/-- C4.  `convert_satellite_data` computes the corrected mean motion by
the two-step Brouwer recurrence of the specification (applied to the
parsed rev/day mean motion, the inclination in radians, and the scaled
eccentricity), and flags deep space exactly when `2π/xnodp ≥ 225`. -/
theorem c4_brouwer_mean_motion (tle : Tle) :
    (convert_satellite_data tle).mean_motion =
        brouwerXnodp ((parse_real tle.line2 53 11 : ℚ) : ℝ)
          (radians (parse_real tle.line2 9 8 : ℚ))
          (((parse_real tle.line2 27 7 : ℚ) : ℝ) * 1e-7) ∧
      ((convert_satellite_data tle).deep_space ↔
        TWOPI / (convert_satellite_data tle).mean_motion ≥ 225.0) := by
  constructor
  · show _ = brouwerXnodp _ _ _
    unfold convert_satellite_data brouwerXnodp TWOPI XMNPDA CK2 TOTHIRD
    norm_num
  · show (TWOPI / _ ≥ 225.0) ↔ _
    exact Iff.rfl

/-- C5.  `sgp4` reads only the six Keplerian fields: two element sets
agreeing on them produce identical state vectors for every `tsince`,
whatever their `bstar` and `deep_space`. -/
theorem c5_bstar_deep_space_unused (t : ℝ) (e₁ e₂ : OrbitalElements)
    (h1 : e₁.inclination = e₂.inclination) (h2 : e₁.raan = e₂.raan)
    (h3 : e₁.eccentricity = e₂.eccentricity) (h4 : e₁.arg_perigee = e₂.arg_perigee)
    (h5 : e₁.mean_anomaly = e₂.mean_anomaly) (h6 : e₁.mean_motion = e₂.mean_motion) :
    sgp4 t e₁ = sgp4 t e₂ := by
  cases e₁
  cases e₂
  simp only at h1 h2 h3 h4 h5 h6
  subst h1 h2 h3 h4 h5 h6
  rfl

/-- C5 witness: two concrete element sets differing only in `bstar` and
`deep_space` propagate identically. -/
theorem c5_bstar_deep_space_unused_witness :
    sgp4 0 (OrbitalElements.mk 0 0 0 0 0 1 0 False) =
      sgp4 0 (OrbitalElements.mk 0 0 0 0 0 1 1 True) :=
  c5_bstar_deep_space_unused 0 _ _ rfl rfl rfl rfl rfl rfl

lemma digit_toNat {c : Char} (h : c.isDigit = true) : 48 ≤ c.toNat ∧ c.toNat ≤ 57 := by
  simp [Char.isDigit] at h
  exact h

lemma digit_not_ws {c : Char} (h : c.isDigit = true) : isRustWS c = false := by
  obtain ⟨h1, h2⟩ := digit_toNat h
  simp [isRustWS]
  omega

lemma char_ne_of_toNat_ne {c d : Char} (h : c.toNat ≠ d.toNat) : c ≠ d := by
  intro he
  subst he
  exact h rfl

lemma dropWhile_eq_self_of_all {p : Char → Bool} {cs : List Char}
    (h : ∀ c ∈ cs, p c = false) : cs.dropWhile p = cs := by
  cases cs with
  | nil => rfl
  | cons c t =>
      rw [List.dropWhile_cons, h c (List.mem_cons_self c t)]
      simp

lemma takeWhile_eq_self_of_all {p : Char → Bool} {cs : List Char}
    (h : ∀ c ∈ cs, p c = true) : cs.takeWhile p = cs ∧ cs.dropWhile p = [] := by
  induction cs with
  | nil => exact ⟨rfl, rfl⟩
  | cons c t ih =>
      have hc := h c (List.mem_cons_self c t)
      have ht := ih fun d hd => h d (List.mem_cons_of_mem c hd)
      rw [List.takeWhile_cons, List.dropWhile_cons, hc]
      simp [ht.1, ht.2]

lemma rustTrim_eq_self {cs : List Char} (h : ∀ c ∈ cs, isRustWS c = false) :
    rustTrim cs = cs := by
  unfold rustTrim
  rw [dropWhile_eq_self_of_all h,
    dropWhile_eq_self_of_all fun c hc => h c (List.mem_reverse.mp hc),
    List.reverse_reverse]

lemma rustReplace_eq_self {p : Char} {sub : List Char} {cs : List Char}
    (h : ∀ c ∈ cs, c ≠ p) : rustReplace p sub cs = cs := by
  induction cs with
  | nil => rfl
  | cons c t ih =>
      show (if c = p then sub else [c]) ++ rustReplace p sub t = c :: t
      rw [if_neg (h c (List.mem_cons_self c t)), ih fun d hd => h d (List.mem_cons_of_mem c hd)]
      rfl

lemma digitsToNat_aux {ds : List Char} (h : ∀ c ∈ ds, c.isDigit = true) :
    ∀ a : ℕ, ds.foldl (fun a c => 10 * a + (c.toNat - 48)) a < (a + 1) * 10 ^ ds.length := by
  induction ds with
  | nil => intro a; simp
  | cons c t ih =>
      intro a
      have hc := digit_toNat (h c (List.mem_cons_self c t))
      have ht := ih (fun d hd => h d (List.mem_cons_of_mem c hd)) (10 * a + (c.toNat - 48))
      have h10 : 10 * a + (c.toNat - 48) + 1 ≤ 10 * (a + 1) := by omega
      calc (c :: t).foldl (fun a c => 10 * a + (c.toNat - 48)) a
          = t.foldl (fun a c => 10 * a + (c.toNat - 48)) (10 * a + (c.toNat - 48)) := rfl
        _ < (10 * a + (c.toNat - 48) + 1) * 10 ^ t.length := ht
        _ ≤ 10 * (a + 1) * 10 ^ t.length := Nat.mul_le_mul_right _ h10
        _ = (a + 1) * 10 ^ (c :: t).length := by
            simp [List.length_cons, pow_succ]
            ring

lemma digitsToNat_lt {ds : List Char} (h : ∀ c ∈ ds, c.isDigit = true) :
    digitsToNat ds < 10 ^ ds.length := by
  have := digitsToNat_aux h 0
  simpa [digitsToNat] using this

lemma parseMantissaZ_all_digits {c : Char} {t : List Char}
    (h : ∀ d ∈ c :: t, d.isDigit = true) :
    parseMantissaZ (c :: t) = some (digitsToNat (c :: t), 0, []) := by
  have htw := takeWhile_eq_self_of_all h
  simp only [parseMantissaZ, htw.1, htw.2]
  rfl

lemma parseFiniteZ_all_digits {ds : List Char} (hne : ds ≠ [])
    (h : ∀ c ∈ ds, c.isDigit = true) :
    parseFiniteZ ds = some ((digitsToNat ds : ℤ), 0) := by
  obtain ⟨c, t, rfl⟩ : ∃ c t, ds = c :: t := by
    cases ds with
    | nil => exact absurd rfl hne
    | cons c t => exact ⟨c, t, rfl⟩
  have hc := digit_toNat (h c (List.mem_cons_self c t))
  have hplus : c ≠ '+' := char_ne_of_toNat_ne (by
    have h43 : ('+').toNat = 43 := by decide
    omega)
  have hminus : c ≠ '-' := char_ne_of_toNat_ne (by
    have h45 : ('-').toNat = 45 := by decide
    omega)
  have hu : parseUnsignedZ (c :: t) = some (digitsToNat (c :: t), 0) := by
    simp only [parseUnsignedZ, parseMantissaZ_all_digits h]
    norm_num
  rw [parseFiniteZ.eq_def]
  split
  · rename_i heq
    injection heq with he _
    exact absurd he hplus
  · rename_i heq
    injection heq with he _
    exact absurd he hminus
  · rw [hu]
    rfl

/-- A string whose first character is `e` fails the (finite) `f64`
grammar: the mantissa needs a digit or dot before any exponent. -/
lemma parseFiniteZ_e_head (r : List Char) : parseFiniteZ ('e' :: r) = none := rfl

lemma signRewrite_of_sign_head {cs : List Char} {c : Char} {t : List Char}
    (htrim : rustTrim cs = c :: t) (hsign : c = '-' ∨ c = '+') :
    ∃ r, signRewrite cs = 'e' :: r := by
  unfold signRewrite
  rw [htrim]
  rcases hsign with rfl | rfl
  · exact ⟨_, rfl⟩
  · exact ⟨_, rfl⟩

/-- A field whose trimmed text begins with a bare sign parses to zero
after the sign rewrite. -/
lemma parse_real_zero_of_sign_head {line : String} {start len : ℕ} {c : Char}
    (hhead : (rustTrim ((rustSliceBytes line (start - 1) len).getD ['0'])).head? = some c)
    (hsign : c = '-' ∨ c = '+') : parse_real line start len = 0 := by
  set raw := (rustSliceBytes line (start - 1) len).getD ['0'] with hraw
  obtain ⟨t, htrim⟩ : ∃ t, rustTrim raw = c :: t := by
    cases he : rustTrim raw with
    | nil => rw [he] at hhead; simp at hhead
    | cons d u =>
        rw [he] at hhead
        simp at hhead
        exact ⟨u, by rw [hhead]⟩
  obtain ⟨r, hrew⟩ := signRewrite_of_sign_head htrim hsign
  show (parseFinite (signRewrite raw)).getD 0 = 0
  rw [hrew]
  show ((parseFiniteZ ('e' :: r)).map _).getD 0 = 0
  rw [parseFiniteZ_e_head]
  rfl

/-- C3.  `convert_satellite_data` is total: it returns an
`OrbitalElements` value for any two input strings; and `parse_real`
yields `0` for every field whose substring is absent or out of bounds
(the slice fails and the default `"0"` is parsed) or whose trimmed,
sign-rewritten text is accepted neither by the finite-number grammar
nor as a signed `inf`/`infinity`/`nan` keyword — exactly the fields on
which the Rust `f64` parse fails and `unwrap_or(0.0)` fires.  (Fields
that rewrite to a bare keyword form parse to a non-finite value in the
program and are excluded by the `isSignedSpecial` guard.) -/
theorem c3_parser_total_default (line1 line2 : String) :
    (∃ elements, convert_satellite_data (Tle.mk line1 line2) = elements) ∧
      ∀ (line : String) (start len : ℕ),
        (rustSliceBytes line (start - 1) len = none ∨
          (parseFinite (signRewrite ((rustSliceBytes line (start - 1) len).getD ['0'])) = none ∧
            isSignedSpecial (signRewrite ((rustSliceBytes line (start - 1) len).getD ['0'])) = false)) →
        parse_real line start len = 0 := by
  refine ⟨⟨_, rfl⟩, fun line start len h => ?_⟩
  rcases h with h | h
  · show (parseFinite (signRewrite ((rustSliceBytes line (start - 1) len).getD ['0']))).getD 0 = 0
    rw [h]
    show (parseFinite (signRewrite ['0'])).getD 0 = 0
    have hz : parseFiniteZ (signRewrite ['0']) = some (0, 0) := by decide
    simp [parseFinite, hz]
  · show (parseFinite (signRewrite ((rustSliceBytes line (start - 1) len).getD ['0']))).getD 0 = 0
    rw [h.1]
    rfl

/-- C3 witness: an alphabetic inclination field (columns 9–16) is
rejected by both the finite grammar and the keyword forms, and parses
to `0`; a line too short for those columns fails the slice and also
parses to `0`. -/
theorem c3_parser_total_default_witness :
    (parseFinite (signRewrite ((rustSliceBytes "2 25544  abcdefgh" 8 8).getD ['0'])) = none ∧
      isSignedSpecial (signRewrite ((rustSliceBytes "2 25544  abcdefgh" 8 8).getD ['0'])) = false) ∧
      parse_real "2 25544  abcdefgh" 9 8 = 0 ∧
      rustSliceBytes "x" 8 8 = none ∧ parse_real "x" 9 8 = 0 :=
  ⟨⟨by decide, by decide⟩,
    (c3_parser_total_default "2 25544  abcdefgh" "x").2 "2 25544  abcdefgh" 9 8
      (Or.inr ⟨by decide, by decide⟩),
    by decide,
    (c3_parser_total_default "x" "x").2 "x" 9 8 (Or.inl (by decide))⟩

/-- C9.  `parse_real` rewrites every `-` to `e-` and every `+` to `e+`
in the trimmed field (first conjunct, definitional); consequently a
trimmed field starting with a bare sign fails numeric parsing and
resolves to `0`; in particular a `-`-leading drag mantissa (columns
54–59 of line 1) gives `bstar = 0`, and `-`-leading inclination or RAAN
fields of line 2 parse those angles to `0`. -/
theorem c9_sign_rewrite_zeroes :
    (∀ (line : String) (start len : ℕ),
        parse_real line start len =
          (parseFinite (rustReplace '+' ['e', '+'] (rustReplace '-' ['e', '-']
            (rustTrim ((rustSliceBytes line (start - 1) len).getD ['0']))))).getD 0) ∧
      (∀ (line : String) (start len : ℕ) (c : Char),
        (rustTrim ((rustSliceBytes line (start - 1) len).getD ['0'])).head? = some c →
        (c = '-' ∨ c = '+') → parse_real line start len = 0) ∧
      (∀ tle : Tle,
        (rustTrim ((rustSliceBytes tle.line1 53 6).getD ['0'])).head? = some '-' →
        (convert_satellite_data tle).bstar = 0) ∧
      (∀ tle : Tle,
        (rustTrim ((rustSliceBytes tle.line2 8 8).getD ['0'])).head? = some '-' →
        (convert_satellite_data tle).inclination = 0) ∧
      (∀ tle : Tle,
        (rustTrim ((rustSliceBytes tle.line2 17 8).getD ['0'])).head? = some '-' →
        (convert_satellite_data tle).raan = 0) := by
  have hz : ∀ (line : String) (start len : ℕ) (c : Char),
      (rustTrim ((rustSliceBytes line (start - 1) len).getD ['0'])).head? = some c →
      (c = '-' ∨ c = '+') → parse_real line start len = 0 :=
    fun line start len c hh hs => parse_real_zero_of_sign_head hh hs
  refine ⟨fun line start len => rfl, hz, fun tle hh => ?_, fun tle hh => ?_, fun tle hh => ?_⟩
  · have h0 : parse_real tle.line1 54 6 = 0 := hz tle.line1 54 6 '-' hh (Or.inl rfl)
    show ((parse_real tle.line1 54 6 : ℚ) : ℝ) * 1e-5 * _ = 0
    rw [h0]
    norm_num
  · have h0 : parse_real tle.line2 9 8 = 0 := hz tle.line2 9 8 '-' hh (Or.inl rfl)
    show radians (parse_real tle.line2 9 8 : ℚ) = 0
    rw [h0]
    show (((0 : ℚ) : ℝ)) * Real.pi / 180.0 = 0
    norm_num
  · have h0 : parse_real tle.line2 18 8 = 0 := hz tle.line2 18 8 '-' hh (Or.inl rfl)
    show radians (parse_real tle.line2 18 8 : ℚ) = 0
    rw [h0]
    show (((0 : ℚ) : ℝ)) * Real.pi / 180.0 = 0
    norm_num

/-- C9 witness: a TLE with `-`-leading drag mantissa, inclination and
RAAN fields has `bstar = 0`, `inclination = 0` and `raan = 0`. -/
theorem c9_sign_rewrite_zeroes_witness :
    (convert_satellite_data (Tle.mk
        "1 25544U 98067A   21135.57634567  .00002418  00000-0 -12345-4 0  9993"
        "2 25544 -51.6443 -26.6639 0006738  34.7758 325.3542 15.48913328283873")).bstar = 0 ∧
      (convert_satellite_data (Tle.mk
        "1 25544U 98067A   21135.57634567  .00002418  00000-0 -12345-4 0  9993"
        "2 25544 -51.6443 -26.6639 0006738  34.7758 325.3542 15.48913328283873")).inclination = 0 ∧
      (convert_satellite_data (Tle.mk
        "1 25544U 98067A   21135.57634567  .00002418  00000-0 -12345-4 0  9993"
        "2 25544 -51.6443 -26.6639 0006738  34.7758 325.3542 15.48913328283873")).raan = 0 :=
  ⟨c9_sign_rewrite_zeroes.2.2.1 _ (by decide),
    c9_sign_rewrite_zeroes.2.2.2.1 _ (by decide),
    c9_sign_rewrite_zeroes.2.2.2.2 _ (by decide)⟩

/-- A field consisting solely of digits parses to its decimal value. -/
lemma parse_real_all_digits {line : String} {start len : ℕ} {ds : List Char}
    (hslice : rustSliceBytes line (start - 1) len = some ds) (hne : ds ≠ [])
    (hdig : ∀ c ∈ ds, c.isDigit = true) :
    parse_real line start len = (digitsToNat ds : ℚ) := by
  show (parseFinite (signRewrite ((rustSliceBytes line (start - 1) len).getD ['0']))).getD 0 = _
  rw [hslice]
  have htrim : rustTrim ds = ds := rustTrim_eq_self fun c hc => digit_not_ws (hdig c hc)
  have hrep1 : rustReplace '-' ['e', '-'] ds = ds := rustReplace_eq_self fun c hc =>
    char_ne_of_toNat_ne (by
      have h45 : ('-').toNat = 45 := by decide
      have := digit_toNat (hdig c hc)
      omega)
  have hrep2 : rustReplace '+' ['e', '+'] ds = ds := rustReplace_eq_self fun c hc =>
    char_ne_of_toNat_ne (by
      have h43 : ('+').toNat = 43 := by decide
      have := digit_toNat (hdig c hc)
      omega)
  have hrw : signRewrite ds = ds := by
    unfold signRewrite
    rw [htrim, hrep1, hrep2]
  show (parseFinite (signRewrite ds)).getD 0 = _
  rw [hrw]
  unfold parseFinite
  rw [parseFiniteZ_all_digits hne hdig]
  show (digitsToNat ds : ℚ) * 10 ^ (0 : ℤ) = (digitsToNat ds : ℚ)
  norm_num

/-- C8.  When the line-2 eccentricity field (1-based columns 27–33) is
exactly seven ASCII digits, `convert_satellite_data` returns that
integer divided by `1e7`, which lies in `[0, 1)`. -/
theorem c8_eccentricity_range (tle : Tle) (ds : List Char)
    (hslice : rustSliceBytes tle.line2 26 7 = some ds)
    (hlen : ds.length = 7) (hdig : ∀ c ∈ ds, c.isDigit = true) :
    (convert_satellite_data tle).eccentricity = (digitsToNat ds : ℝ) / 10 ^ 7 ∧
      0 ≤ (convert_satellite_data tle).eccentricity ∧
      (convert_satellite_data tle).eccentricity < 1 := by
  have hne : ds ≠ [] := by
    intro h
    rw [h] at hlen
    simp at hlen
  have hq : parse_real tle.line2 27 7 = (digitsToNat ds : ℚ) :=
    parse_real_all_digits hslice hne hdig
  have hecc : (convert_satellite_data tle).eccentricity =
      ((digitsToNat ds : ℚ) : ℝ) * 1e-7 := by
    show ((parse_real tle.line2 27 7 : ℚ) : ℝ) * 1e-7 = _
    rw [hq]
  have hlt : digitsToNat ds < 10 ^ 7 := by
    have := digitsToNat_lt hdig
    rwa [hlen] at this
  rw [hecc]
  push_cast
  refine ⟨by ring, by positivity, ?_⟩
  have : (digitsToNat ds : ℝ) < 10 ^ 7 := by exact_mod_cast hlt
  nlinarith

/-- C8 witness: the ISS fixture's eccentricity field `0006738` gives
eccentricity `6738/10^7`, inside `[0, 1)`. -/
theorem c8_eccentricity_range_witness :
    rustSliceBytes issTle.line2 26 7 = some ['0', '0', '0', '6', '7', '3', '8'] ∧
      (convert_satellite_data issTle).eccentricity =
        (digitsToNat ['0', '0', '0', '6', '7', '3', '8'] : ℝ) / 10 ^ 7 ∧
      0 ≤ (convert_satellite_data issTle).eccentricity ∧
      (convert_satellite_data issTle).eccentricity < 1 :=
  ⟨by decide,
    c8_eccentricity_range issTle ['0', '0', '0', '6', '7', '3', '8'] (by decide) (by decide)
      (by decide)⟩

lemma fvSub_nan (x : FV) : fvSub x FV.nan = FV.nan := by
  cases x <;> rfl

lemma fvGt_abs_nan_false (tol : ℝ) : ¬ fvGt (fvAbs FV.nan) (FV.fin tol) := by
  simp [fvAbs, fvGt]

/-- The Newton correction of iteration zero on the inputs
`mean_anomaly = 0`, `ecc = 1`: `f = 0 - 1·sin 0 - 0 = 0` and
`f_prime = 1 - 1·cos 0 = 0`, so `delta = 0/0` is NaN. -/
lemma fvD_zero_one_nan : fvD 0 1 0 = FV.nan := by
  show fvDiv (fvF 0 1 (FV.fin 0)) (fvFp 1 (FV.fin 0)) = FV.nan
  have hf : fvF 0 1 (FV.fin 0) = FV.fin 0 := by
    simp [fvF, fvSin, fvMul, fvSub, Real.sin_zero]
  have hfp : fvFp 1 (FV.fin 0) = FV.fin 0 := by
    simp [fvFp, fvCos, fvMul, fvSub, Real.cos_zero]
    norm_num
  rw [hf, hfp]
  simp [fvDiv]

/-- C10.  In the IEEE model, a NaN Newton correction makes the loop
guard `|delta| > tol` false, so the loop exits; when iteration `n` is
the first whose guard fails and its `delta` is NaN (and `tol < 1`, so
the loop was entered), `solve_kepler` returns NaN. -/
theorem c10_nan_step_terminates :
    (∀ (m ecc tol : ℝ) (n : ℕ), fvD m ecc n = FV.nan →
        ¬ fvGt (fvAbs (fvD m ecc n)) (FV.fin tol)) ∧
      ∀ (m ecc tol : ℝ) (n : ℕ), tol < 1 → fvD m ecc n = FV.nan →
        (∀ k, k < n → fvGt (fvAbs (fvD m ecc k)) (FV.fin tol)) →
        solve_kepler_fv m ecc tol = FV.nan := by
  have part1 : ∀ (m ecc tol : ℝ) (n : ℕ), fvD m ecc n = FV.nan →
      ¬ fvGt (fvAbs (fvD m ecc n)) (FV.fin tol) := by
    intro m ecc tol n h
    rw [h]
    exact fvGt_abs_nan_false tol
  refine ⟨part1, fun m ecc tol n htol hnan hfirst => ?_⟩
  classical
  have hguard : fvGt (fvAbs (FV.fin 1.0)) (FV.fin tol) := by
    show tol < |(1.0 : ℝ)|
    norm_num
    exact htol
  have hex : ∃ k, ¬ fvGt (fvAbs (fvD m ecc k)) (FV.fin tol) :=
    ⟨n, part1 m ecc tol n hnan⟩
  unfold solve_kepler_fv
  rw [if_pos hguard, dif_pos hex]
  have hfind : Nat.find hex = n := by
    rw [Nat.find_eq_iff]
    exact ⟨part1 m ecc tol n hnan, fun k hk => not_not_intro (hfirst k hk)⟩
  rw [hfind]
  show fvSub (fvE m ecc n) (fvD m ecc n) = FV.nan
  rw [hnan]
  exact fvSub_nan _

/-- C10 witness: `solve_kepler(0.0, 1.0, 1e-8)` terminates with NaN (the
first Newton step is `0/0`). -/
theorem c10_nan_step_terminates_witness : solve_kepler_fv 0 1 1e-8 = FV.nan :=
  c10_nan_step_terminates.2 0 1 1e-8 0 (by norm_num) fvD_zero_one_nan
    (fun k hk => absurd hk (Nat.not_lt_zero k))

lemma abs_sin_sub_sin_le (a b : ℝ) : |Real.sin a - Real.sin b| ≤ |a - b| := by
  rw [Real.sin_sub_sin]
  have h1 : |Real.sin ((a - b) / 2)| ≤ |(a - b) / 2| := Real.abs_sin_le_abs
  have h2 : |Real.cos ((a + b) / 2)| ≤ 1 := Real.abs_cos_le_one _
  have h3 : |(a - b) / 2| = |a - b| / 2 := by
    rw [abs_div]
    norm_num
  calc |2 * Real.sin ((a - b) / 2) * Real.cos ((a + b) / 2)|
      = 2 * |Real.sin ((a - b) / 2)| * |Real.cos ((a + b) / 2)| := by
        rw [abs_mul, abs_mul]
        norm_num
    _ ≤ 2 * |(a - b) / 2| * 1 := by
        apply mul_le_mul
        · apply mul_le_mul_of_nonneg_left h1
          norm_num
        · exact h2
        · exact abs_nonneg _
        · positivity
    _ = |a - b| := by rw [h3]; ring

/-- The Kepler residual is strictly increasing with slope at least
`1 - ecc`. -/
lemma kepler_slope {ecc : ℝ} (h0 : 0 ≤ ecc) {m a b : ℝ} (hab : a ≤ b) :
    (1 - ecc) * (b - a) ≤
      (b - ecc * Real.sin b - m) - (a - ecc * Real.sin a - m) := by
  have h1 : |Real.sin b - Real.sin a| ≤ |b - a| := abs_sin_sub_sin_le b a
  have h2 : |b - a| = b - a := abs_of_nonneg (by linarith)
  rw [h2] at h1
  have h3 : Real.sin b - Real.sin a ≤ b - a := (abs_le.mp h1).2
  nlinarith

/-- The Newton denominator `1 - ecc·cos e` is at least `1 - ecc`. -/
lemma kepler_fp_lower {ecc : ℝ} (h0 : 0 ≤ ecc) (e : ℝ) :
    1 - ecc ≤ 1.0 - ecc * Real.cos e := by
  have := Real.cos_le_one e
  nlinarith

/-- The Newton step is bounded by the residual over `1 - ecc`. -/
lemma keplerDelta_abs_le {m ecc e : ℝ} (h0 : 0 ≤ ecc) (h1 : ecc < 1) :
    |keplerDelta m ecc e| ≤ |e - ecc * Real.sin e - m| / (1 - ecc) := by
  have hg : 1 - ecc ≤ 1.0 - ecc * Real.cos e := kepler_fp_lower h0 e
  have hgpos : 0 < 1.0 - ecc * Real.cos e := by linarith
  unfold keplerDelta
  rw [abs_div, abs_of_pos hgpos]
  exact div_le_div_of_nonneg_left (abs_nonneg _) (by linarith) hg

/-- One Newton step at `e` with correction `d = keplerDelta m ecc e`
leaves a residual of size at most `ecc·d²` (quadratic contraction),
provided `|d| ≤ 1`. -/
lemma kepler_newton_residual {m ecc e : ℝ} (h0 : 0 ≤ ecc) (h1 : ecc < 1)
    (hd : |keplerDelta m ecc e| ≤ 1) :
    |(e - keplerDelta m ecc e) - ecc * Real.sin (e - keplerDelta m ecc e) - m| ≤
      ecc * keplerDelta m ecc e ^ 2 := by
  set d := keplerDelta m ecc e with hdd
  have hg : 0 < 1.0 - ecc * Real.cos e := by
    have := kepler_fp_lower h0 e
    linarith
  have hfd : e - ecc * Real.sin e - m = d * (1.0 - ecc * Real.cos e) := by
    rw [hdd]
    unfold keplerDelta
    field_simp
  have hsin : Real.sin (e - d) = Real.sin e * Real.cos d - Real.cos e * Real.sin d :=
    Real.sin_sub e d
  have hexpand : (e - d) - ecc * Real.sin (e - d) - m =
      ecc * (Real.sin e * (1 - Real.cos d) + Real.cos e * (Real.sin d - d)) := by
    rw [hsin]
    have : (e - d) - ecc * (Real.sin e * Real.cos d - Real.cos e * Real.sin d) - m =
        (e - ecc * Real.sin e - m) - d + ecc * (Real.sin e * (1 - Real.cos d)
          + Real.cos e * Real.sin d) := by ring
    rw [this, hfd]
    ring
  rw [hexpand]
  have habs_d : |d| ≤ 1 := hd
  have hcos_d : |1 - Real.cos d| ≤ d ^ 2 / 2 := by
    have hle := Real.cos_le_one d
    have hge := Real.one_sub_sq_div_two_le_cos (x := d)
    rw [abs_of_nonneg (by linarith)]
    linarith
  have hsin_d : |Real.sin d - d| ≤ d ^ 2 / 4 := by
    have hb := Real.sin_bound habs_d
    have h4 : |d| ^ 4 ≤ |d| ^ 3 := by
      apply pow_le_pow_of_le_one (abs_nonneg _) habs_d
      norm_num
    have h3 : |d| ^ 3 ≤ |d| ^ 2 := by
      apply pow_le_pow_of_le_one (abs_nonneg _) habs_d
      norm_num
    have hcube : |d ^ 3 / 6| = |d| ^ 3 / 6 := by
      rw [abs_div, abs_pow]
      norm_num
    have : |Real.sin d - d| ≤ |Real.sin d - (d - d ^ 3 / 6)| + |d ^ 3 / 6| := by
      have := abs_sub_le (Real.sin d) (d - d ^ 3 / 6) d
      have heq : |d - d ^ 3 / 6 - d| = |d ^ 3 / 6| := by
        rw [show d - d ^ 3 / 6 - d = -(d ^ 3 / 6) by ring, abs_neg]
      linarith [abs_sub_le (Real.sin d) (d - d ^ 3 / 6) d, heq ▸ this]
    have hsq : |d| ^ 2 = d ^ 2 := sq_abs d
    calc |Real.sin d - d| ≤ |Real.sin d - (d - d ^ 3 / 6)| + |d ^ 3 / 6| := this
      _ ≤ |d| ^ 4 * (5 / 96) + |d| ^ 3 / 6 := by
          rw [hcube]
          gcongr
      _ ≤ |d| ^ 2 * (5 / 96) + |d| ^ 2 / 6 := by
          have h42 : |d| ^ 4 ≤ |d| ^ 2 := le_trans h4 h3
          gcongr
      _ ≤ d ^ 2 / 4 := by
          rw [hsq]
          nlinarith [sq_nonneg d]
  have hsinE : |Real.sin e| ≤ 1 := Real.abs_sin_le_one e
  have hcosE : |Real.cos e| ≤ 1 := Real.abs_cos_le_one e
  calc |ecc * (Real.sin e * (1 - Real.cos d) + Real.cos e * (Real.sin d - d))|
      = ecc * |Real.sin e * (1 - Real.cos d) + Real.cos e * (Real.sin d - d)| := by
        rw [abs_mul, abs_of_nonneg h0]
    _ ≤ ecc * (|Real.sin e * (1 - Real.cos d)| + |Real.cos e * (Real.sin d - d)|) := by
        apply mul_le_mul_of_nonneg_left (abs_add _ _) h0
    _ ≤ ecc * (d ^ 2 / 2 + d ^ 2 / 4) := by
        apply mul_le_mul_of_nonneg_left _ h0
        have e1 : |Real.sin e * (1 - Real.cos d)| ≤ d ^ 2 / 2 := by
          rw [abs_mul]
          have := mul_le_mul hsinE hcos_d (abs_nonneg _) zero_le_one
          linarith
        have e2 : |Real.cos e * (Real.sin d - d)| ≤ d ^ 2 / 4 := by
          rw [abs_mul]
          have := mul_le_mul hcosE hsin_d (abs_nonneg _) zero_le_one
          linarith
        linarith
    _ ≤ ecc * d ^ 2 := by nlinarith [sq_nonneg d]

lemma expI_partial_sum (r : ℝ) (k : ℕ) :
    ∑ m ∈ Finset.range (2 * k), ((r : ℂ) * Complex.I) ^ m / (Nat.factorial m : ℂ) =
      (cosSum r k : ℂ) + (sinSum r k : ℂ) * Complex.I := by
  induction k with
  | zero => simp [cosSum, sinSum]
  | succ n ih =>
      have h2 : 2 * (n + 1) = 2 * n + 1 + 1 := by ring
      rw [h2, Finset.sum_range_succ, Finset.sum_range_succ, ih]
      have hI2 : Complex.I ^ (2 * n) = ((-1 : ℂ)) ^ n := by
        rw [pow_mul, Complex.I_sq]
      have hI21 : Complex.I ^ (2 * n + 1) = ((-1 : ℂ)) ^ n * Complex.I := by
        rw [pow_succ, hI2]
      have hterm1 : ((r : ℂ) * Complex.I) ^ (2 * n) / (Nat.factorial (2 * n) : ℂ) =
          (((-1 : ℝ) ^ n * r ^ (2 * n) / (Nat.factorial (2 * n) : ℝ) : ℝ) : ℂ) := by
        rw [mul_pow, hI2]
        push_cast
        ring
      have hterm2 : ((r : ℂ) * Complex.I) ^ (2 * n + 1) / (Nat.factorial (2 * n + 1) : ℂ) =
          (((-1 : ℝ) ^ n * r ^ (2 * n + 1) / (Nat.factorial (2 * n + 1) : ℝ) : ℝ) : ℂ) *
            Complex.I := by
        rw [mul_pow, hI21]
        push_cast
        ring
      rw [hterm1, hterm2]
      unfold cosSum sinSum
      rw [Finset.sum_range_succ, Finset.sum_range_succ]
      push_cast
      ring

lemma sin_cos_partial_bound (r : ℝ) (hr : |r| ≤ 1) (k : ℕ) (hk : 0 < 2 * k) :
    |Real.cos r - cosSum r k| ≤
        |r| ^ (2 * k) * (((2 * k).succ : ℝ) * ((Nat.factorial (2 * k) : ℝ) * ((2 * k : ℕ) : ℝ))⁻¹) ∧
      |Real.sin r - sinSum r k| ≤
        |r| ^ (2 * k) * (((2 * k).succ : ℝ) * ((Nat.factorial (2 * k) : ℝ) * ((2 * k : ℕ) : ℝ))⁻¹) := by
  have habs : Complex.abs ((r : ℂ) * Complex.I) = |r| := by
    rw [map_mul, Complex.abs_ofReal, Complex.abs_I, mul_one]
  have hx : Complex.abs ((r : ℂ) * Complex.I) ≤ 1 := by rw [habs]; exact hr
  have hb := Complex.exp_bound hx hk
  have hexp : Complex.exp ((r : ℂ) * Complex.I) =
      ((Real.cos r : ℝ) : ℂ) + ((Real.sin r : ℝ) : ℂ) * Complex.I := by
    rw [Complex.exp_mul_I, Complex.ofReal_cos, Complex.ofReal_sin]
  rw [hexp, expI_partial_sum, habs] at hb
  have hz : ((Real.cos r : ℝ) : ℂ) + ((Real.sin r : ℝ) : ℂ) * Complex.I -
      ((cosSum r k : ℂ) + (sinSum r k : ℂ) * Complex.I) =
        ((Real.cos r - cosSum r k : ℝ) : ℂ) +
          ((Real.sin r - sinSum r k : ℝ) : ℂ) * Complex.I := by
    push_cast
    ring
  rw [hz] at hb
  have hre : (((Real.cos r - cosSum r k : ℝ) : ℂ) +
      ((Real.sin r - sinSum r k : ℝ) : ℂ) * Complex.I).re = Real.cos r - cosSum r k := by
    simp [Complex.cos_ofReal_re, Complex.sin_ofReal_re]
  have him : (((Real.cos r - cosSum r k : ℝ) : ℂ) +
      ((Real.sin r - sinSum r k : ℝ) : ℂ) * Complex.I).im = Real.sin r - sinSum r k := by
    simp [Complex.cos_ofReal_re, Complex.sin_ofReal_re]
  constructor
  · have := Complex.abs_re_le_abs (((Real.cos r - cosSum r k : ℝ) : ℂ) +
      ((Real.sin r - sinSum r k : ℝ) : ℂ) * Complex.I)
    rw [hre] at this
    exact le_trans this hb
  · have := Complex.abs_im_le_abs (((Real.cos r - cosSum r k : ℝ) : ℂ) +
      ((Real.sin r - sinSum r k : ℝ) : ℂ) * Complex.I)
    rw [him] at this
    exact le_trans this hb

lemma sin_cos_one_bounds :
    ((0.8414709848077 : ℝ) ≤ Real.sin 1 ∧ Real.sin 1 ≤ 0.8414709848080) ∧
      ((0.5403023058679 : ℝ) ≤ Real.cos 1 ∧ Real.cos 1 ≤ 0.5403023058682) := by
  obtain ⟨hc, hs⟩ := sin_cos_partial_bound 1 (by norm_num) 8 (by norm_num)
  rw [abs_le] at hs hc
  norm_num [sinSum, cosSum, Finset.sum_range_succ, Nat.factorial] at hs hc
  exact ⟨⟨by linarith [hs.1, hs.2], by linarith [hs.1, hs.2]⟩,
    ⟨by linarith [hc.1, hc.2], by linarith [hc.1, hc.2]⟩⟩

lemma sin_cos_t1_bounds :
    ((0.088481878999227 : ℝ) ≤ Real.sin 0.0885977423978936 ∧
      Real.sin 0.0885977423978936 ≤ 0.088481878999230) ∧
      ((0.996077786665661 : ℝ) ≤ Real.cos 0.0885977423978936 ∧
        Real.cos 0.0885977423978936 ≤ 0.996077786665664) := by
  obtain ⟨hc, hs⟩ := sin_cos_partial_bound 0.0885977423978936 (by rw [abs_le]; norm_num) 5
    (by norm_num)
  rw [abs_of_pos (show (0 : ℝ) < 0.0885977423978936 by norm_num)] at hs hc
  rw [abs_le] at hs hc
  norm_num [sinSum, cosSum, Finset.sum_range_succ, Nat.factorial] at hs hc
  exact ⟨⟨by linarith [hs.1, hs.2], by linarith [hs.1, hs.2]⟩,
    ⟨by linarith [hc.1, hc.2], by linarith [hc.1, hc.2]⟩⟩

lemma sin_cos_t2_bounds :
    ((0.088481898920783 : ℝ) ≤ Real.sin 0.0885977623978936 ∧
      Real.sin 0.0885977623978936 ≤ 0.088481898920786) ∧
      ((0.996077784896024 : ℝ) ≤ Real.cos 0.0885977623978936 ∧
        Real.cos 0.0885977623978936 ≤ 0.996077784896026) := by
  obtain ⟨hc, hs⟩ := sin_cos_partial_bound 0.0885977623978936 (by rw [abs_le]; norm_num) 5
    (by norm_num)
  rw [abs_of_pos (show (0 : ℝ) < 0.0885977623978936 by norm_num)] at hs hc
  rw [abs_le] at hs hc
  norm_num [sinSum, cosSum, Finset.sum_range_succ, Nat.factorial] at hs hc
  exact ⟨⟨by linarith [hs.1, hs.2], by linarith [hs.1, hs.2]⟩,
    ⟨by linarith [hc.1, hc.2], by linarith [hc.1, hc.2]⟩⟩

/-- The Kepler residual `f(x) = x - 0.1·sin x - 1` is below `-1e-17` at
`x₁ = 1.0885977423978936` (the target root minus `1e-8`). -/
lemma kepler_f_neg_at_x1 :
    (1.0885977423978936 : ℝ) - 0.1 * Real.sin 1.0885977423978936 - 1 < -(1e-17) := by
  have hx : (1.0885977423978936 : ℝ) = 1 + 0.0885977423978936 := by norm_num
  rw [hx, Real.sin_add]
  obtain ⟨hs1, hc1⟩ := sin_cos_one_bounds
  obtain ⟨hst, hct⟩ := sin_cos_t1_bounds
  have h1 : (0.8414709848077 : ℝ) * 0.996077786665661 ≤
      Real.sin 1 * Real.cos 0.0885977423978936 :=
    mul_le_mul hs1.1 hct.1 (by norm_num) (by linarith [hs1.1])
  have h2 : (0.5403023058679 : ℝ) * 0.088481878999227 ≤
      Real.cos 1 * Real.sin 0.0885977423978936 :=
    mul_le_mul hc1.1 hst.1 (by norm_num) (by linarith [hc1.1])
  nlinarith [h1, h2]

/-- The Kepler residual `f(x) = x - 0.1·sin x - 1` is above `1e-17` at
`x₂ = 1.0885977623978936` (the target root plus `1e-8`). -/
lemma kepler_f_pos_at_x2 :
    (1e-17 : ℝ) < (1.0885977623978936 : ℝ) - 0.1 * Real.sin 1.0885977623978936 - 1 := by
  have hx : (1.0885977623978936 : ℝ) = 1 + 0.0885977623978936 := by norm_num
  rw [hx, Real.sin_add]
  obtain ⟨hs1, hc1⟩ := sin_cos_one_bounds
  obtain ⟨hst, hct⟩ := sin_cos_t2_bounds
  have h1 : Real.sin 1 * Real.cos 0.0885977623978936 ≤
      (0.8414709848080 : ℝ) * 0.996077784896026 :=
    mul_le_mul hs1.2 hct.2 (by linarith [hct.1]) (by norm_num)
  have h2 : Real.cos 1 * Real.sin 0.0885977623978936 ≤
      (0.5403023058682 : ℝ) * 0.088481898920786 :=
    mul_le_mul hc1.2 hst.2 (by linarith [hst.1]) (by norm_num)
  nlinarith [h1, h2]

/-- Newton-step bound from a residual bound. -/
lemma delta_chain {m ecc e a : ℝ} (h0 : 0 ≤ ecc) (h1 : ecc < 1)
    (hf : |e - ecc * Real.sin e - m| ≤ a) :
    |keplerDelta m ecc e| ≤ a / (1 - ecc) := by
  refine le_trans (keplerDelta_abs_le h0 h1) ?_
  exact (div_le_div_iff_of_pos_right (by linarith)).mpr hf

/-- Residual bound at the next iterate from a Newton-step bound. -/
lemma residual_chain {m ecc e b : ℝ} (h0 : 0 ≤ ecc) (h1 : ecc < 1)
    (hd : |keplerDelta m ecc e| ≤ b) (hb : b ≤ 1) :
    |(e - keplerDelta m ecc e) - ecc * Real.sin (e - keplerDelta m ecc e) - m| ≤
      ecc * b ^ 2 := by
  have h := kepler_newton_residual h0 h1 (le_trans hd hb)
  have hsq : keplerDelta m ecc e ^ 2 ≤ b ^ 2 := by
    nlinarith [abs_nonneg (keplerDelta m ecc e), sq_abs (keplerDelta m ecc e)]
  nlinarith [h, hsq]

/-- C7.  `solve_kepler 1.0 0.1 1e-8` terminates (some Newton correction
reaches the tolerance) and the returned eccentric anomaly is within
`1e-8` of `1.0885977523978936`. -/
theorem c7_kepler_solver_correct :
    (∃ n, |keplerDelta 1 0.1 (keplerE 1 0.1 n)| ≤ 1e-8) ∧
      |solve_kepler 1 0.1 1e-8 - 1.0885977523978936| ≤ 1e-8 := by
  classical
  have hf0 : |keplerE 1 0.1 0 - 0.1 * Real.sin (keplerE 1 0.1 0) - 1| ≤ 0.1 := by
    show |(1 : ℝ) - 0.1 * Real.sin 1 - 1| ≤ 0.1
    have he : (1 : ℝ) - 0.1 * Real.sin 1 - 1 = -(0.1 * Real.sin 1) := by ring
    rw [he, abs_neg, abs_mul, abs_of_pos (show (0 : ℝ) < 0.1 by norm_num)]
    nlinarith [Real.abs_sin_le_one 1]
  have hd0 : |keplerDelta 1 0.1 (keplerE 1 0.1 0)| ≤ 1 / 9 := by
    have h := delta_chain (by norm_num) (by norm_num) hf0
    have he : (0.1 : ℝ) / (1 - 0.1) = 1 / 9 := by norm_num
    rwa [he] at h
  have hf1 : |keplerE 1 0.1 1 - 0.1 * Real.sin (keplerE 1 0.1 1) - 1| ≤ 0.1 * (1 / 9) ^ 2 :=
    residual_chain (by norm_num) (by norm_num) hd0 (by norm_num)
  have hd1 : |keplerDelta 1 0.1 (keplerE 1 0.1 1)| ≤ 1 / 729 := by
    have h := delta_chain (by norm_num) (by norm_num) hf1
    have he : (0.1 : ℝ) * (1 / 9) ^ 2 / (1 - 0.1) = 1 / 729 := by norm_num
    rwa [he] at h
  have hf2 : |keplerE 1 0.1 2 - 0.1 * Real.sin (keplerE 1 0.1 2) - 1| ≤
      0.1 * (1 / 729) ^ 2 :=
    residual_chain (by norm_num) (by norm_num) hd1 (by norm_num)
  have hd2 : |keplerDelta 1 0.1 (keplerE 1 0.1 2)| ≤ 1 / 4782969 := by
    have h := delta_chain (by norm_num) (by norm_num) hf2
    have he : (0.1 : ℝ) * (1 / 729) ^ 2 / (1 - 0.1) = 1 / 4782969 := by norm_num
    rwa [he] at h
  have hf3 : |keplerE 1 0.1 3 - 0.1 * Real.sin (keplerE 1 0.1 3) - 1| ≤
      0.1 * (1 / 4782969) ^ 2 :=
    residual_chain (by norm_num) (by norm_num) hd2 (by norm_num)
  have hd3 : |keplerDelta 1 0.1 (keplerE 1 0.1 3)| ≤ 1e-8 := by
    have h := delta_chain (by norm_num) (by norm_num) hf3
    have he : (0.1 : ℝ) * (1 / 4782969) ^ 2 / (1 - 0.1) = 1 / 205891132094649 := by norm_num
    rw [he] at h
    refine le_trans h ?_
    norm_num
  have hex : ∃ n, |keplerDelta 1 0.1 (keplerE 1 0.1 n)| ≤ 1e-8 := ⟨3, hd3⟩
  refine ⟨hex, ?_⟩
  unfold solve_kepler
  rw [if_pos (show |(1.0 : ℝ)| > 1e-8 by rw [abs_of_pos] <;> norm_num), dif_pos hex]
  have hdN : |keplerDelta 1 0.1 (keplerE 1 0.1 (Nat.find hex))| ≤ 1e-8 := Nat.find_spec hex
  have hfN : |keplerE 1 0.1 (Nat.find hex + 1) -
      0.1 * Real.sin (keplerE 1 0.1 (Nat.find hex + 1)) - 1| ≤ 0.1 * (1e-8) ^ 2 :=
    residual_chain (by norm_num) (by norm_num) hdN (by norm_num)
  set y := keplerE 1 0.1 (Nat.find hex + 1) with hy
  rw [abs_le] at hfN
  rw [abs_le]
  constructor
  · by_contra hlt
    push_neg at hlt
    have hylt : y ≤ 1.0885977423978936 := by linarith
    have hslope := @kepler_slope 0.1 (by norm_num) 1 y 1.0885977423978936 hylt
    have hx1 := kepler_f_neg_at_x1
    nlinarith [hfN.1]
  · by_contra hgt
    push_neg at hgt
    have hygt : (1.0885977623978936 : ℝ) ≤ y := by linarith
    have hslope := @kepler_slope 0.1 (by norm_num) 1 1.0885977623978936 y hygt
    have hx2 := kepler_f_pos_at_x2
    nlinarith [hfN.2]

/-- Evaluate `parse_real` from a computed grammar parse. -/
lemma parse_real_eval {line : String} {start len : ℕ} {m z : ℤ}
    (h : parseFiniteZ (signRewrite ((rustSliceBytes line (start - 1) len).getD ['0'])) =
      some (m, z)) :
    parse_real line start len = (m : ℚ) * 10 ^ z := by
  show (parseFinite (signRewrite ((rustSliceBytes line (start - 1) len).getD ['0']))).getD 0 = _
  unfold parseFinite
  rw [h]
  rfl

/-- Rational bracketing of a two-thirds power through cubes:
if `l³ ≤ x²` and `x² ≤ u³` then `l ≤ x^(2/3) ≤ u`. -/
lemma rpow23_bounds {x l u : ℝ} (hx : 0 < x) (hl : 0 < l)
    (h1 : l ^ 3 ≤ x ^ 2) (h2 : x ^ 2 ≤ u ^ 3) :
    l ≤ x ^ ((2.0 : ℝ) / 3.0) ∧ x ^ ((2.0 : ℝ) / 3.0) ≤ u := by
  have hxr : 0 < x ^ ((2.0 : ℝ) / 3.0) := Real.rpow_pos_of_pos hx _
  have hcube : (x ^ ((2.0 : ℝ) / 3.0)) ^ 3 = x ^ 2 := by
    have h3 : ((3 : ℕ) : ℝ) = 3 := by norm_num
    rw [← Real.rpow_natCast (x ^ ((2.0 : ℝ) / 3.0)) 3, ← Real.rpow_mul hx.le, h3]
    have he : (2.0 : ℝ) / 3.0 * 3 = 2 := by norm_num
    rw [he]
    rw [show (2 : ℝ) = ((2 : ℕ) : ℝ) by norm_num, Real.rpow_natCast]
  constructor
  · have : l ^ 3 ≤ (x ^ ((2.0 : ℝ) / 3.0)) ^ 3 := by rw [hcube]; exact h1
    exact le_of_pow_le_pow_left (by norm_num) hxr.le this
  · have hu : 0 < u := by
      by_contra hle
      push_neg at hle
      have h3 : (0 : ℝ) ≤ -u * u ^ 2 := mul_nonneg (neg_nonneg.2 hle) (sq_nonneg u)
      nlinarith [pow_pos hx 2]
    have : (x ^ ((2.0 : ℝ) / 3.0)) ^ 3 ≤ u ^ 3 := by rw [hcube]; exact h2
    exact le_of_pow_le_pow_left (by norm_num) hu.le this

/-- For `0 < x ≤ 1`, the power `x^1.5` lies between `x²` and `1`. -/
lemma rpow15_bounds {x : ℝ} (h0 : 0 < x) (h1 : x ≤ 1) :
    x ^ 2 ≤ x ^ (1.5 : ℝ) ∧ x ^ (1.5 : ℝ) ≤ 1 := by
  constructor
  · have h := Real.rpow_le_rpow_of_exponent_ge h0 h1 (show (1.5 : ℝ) ≤ 2 by norm_num)
    rwa [show (2 : ℝ) = ((2 : ℕ) : ℝ) by norm_num, Real.rpow_natCast] at h
  · exact Real.rpow_le_one h0.le h1 (by norm_num)

/-- The three-angle orbital-plane-to-ECI rotation preserves the
Euclidean norm of the plane vector. -/
lemma rot_norm (xo yo cO sO co so ci si : ℝ)
    (hO : sO ^ 2 + cO ^ 2 = 1) (ho : so ^ 2 + co ^ 2 = 1) (hi : si ^ 2 + ci ^ 2 = 1) :
    (xo * (cO * co - sO * so * ci) - yo * (cO * so + sO * co * ci)) ^ 2 +
        (xo * (sO * co + cO * so * ci) - yo * (sO * so - cO * co * ci)) ^ 2 +
        (xo * so * si + yo * co * si) ^ 2 = xo ^ 2 + yo ^ 2 := by
  linear_combination
    (yo ^ 2 * so ^ 2 + yo ^ 2 * co ^ 2 * ci ^ 2 - 2 * xo * yo * co * so +
        2 * xo * yo * co * so * ci ^ 2 + xo ^ 2 * so ^ 2 * ci ^ 2 + xo ^ 2 * co ^ 2) * hO +
      (yo ^ 2 + xo ^ 2 * si ^ 2 + xo ^ 2 * ci ^ 2) * ho +
      (yo ^ 2 * co ^ 2 + 2 * xo * yo * co * so + xo ^ 2 - xo ^ 2 * co ^ 2) * hi

lemma brouwer_bound_chain
    (X xno a1 cI2 D temp del1 ao delo : ℝ)
    (hxnodp : X = xno / (1.0 + delo))
    (hdelo : delo = temp / (ao * ao))
    (hao : ao = a1 * (1.0 - del1 * (0.5 * (2.0 / 3.0) + del1 * (1.0 + 134.0 / 81.0 * del1))))
    (hdel1 : del1 = temp / (a1 * a1))
    (htemp : temp = 1.5 * CK2 * (3.0 * cI2 - 1.0) / D)
    (hc2 : 0 ≤ cI2 ∧ cI2 ≤ 1)
    (hxno : (0.0675840 : ℝ) ≤ xno ∧ xno ≤ 0.0675842)
    (ha1 : (1.06581 : ℝ) ≤ a1 ∧ a1 ≤ 1.06591)
    (hD : (0.9999990 : ℝ) ≤ D ∧ D ≤ 1) :
    (0.0674872 : ℝ) ≤ X ∧ X ≤ 0.0676327 := by
  have hDpos : (0 : ℝ) < D := by linarith only [hD.1]
  have hN : (-0.000811962 : ℝ) ≤ 1.5 * CK2 * (3.0 * cI2 - 1.0) ∧
      1.5 * CK2 * (3.0 * cI2 - 1.0) ≤ 0.001623924 := by
    simp only [CK2]
    constructor <;> nlinarith only [hc2.1, hc2.2]
  have htb : (-0.000813 : ℝ) ≤ temp ∧ temp ≤ 0.001624 := by
    rw [htemp]
    constructor
    · rw [le_div_iff hDpos]
      nlinarith only [hN.1, hD.1, hD.2]
    · rw [div_le_iff hDpos]
      nlinarith only [hN.2, hD.1, hD.2]
  have ha1sq : (1.1359 : ℝ) ≤ a1 * a1 := by nlinarith only [ha1.1, sq_nonneg (a1 - 1.06581)]
  have ha1sqp : (0 : ℝ) < a1 * a1 := by nlinarith only [ha1.1, sq_nonneg (a1 - 1.06581)]
  have hd1 : (-0.000716 : ℝ) ≤ del1 ∧ del1 ≤ 0.001430 := by
    rw [hdel1]
    constructor
    · rw [le_div_iff ha1sqp]
      nlinarith only [htb.1, ha1sq]
    · rw [div_le_iff ha1sqp]
      nlinarith only [htb.2, ha1sq]
  have hi2 : (0.99881 : ℝ) ≤ 1.0 + 134.0 / 81.0 * del1 ∧
      1.0 + 134.0 / 81.0 * del1 ≤ 1.00237 := by
    constructor <;> nlinarith only [hd1.1, hd1.2]
  have hip : (0.332615 : ℝ) ≤ 0.5 * (2.0 / 3.0) + del1 * (1.0 + 134.0 / 81.0 * del1) ∧
      0.5 * (2.0 / 3.0) + del1 * (1.0 + 134.0 / 81.0 * del1) ≤ 0.334767 := by
    constructor <;>
      nlinarith only [hd1.1, hd1.2, hi2.1, hi2.2,
        mul_nonneg (sub_nonneg.2 hd1.1) (sub_nonneg.2 hi2.1),
        mul_nonneg (sub_nonneg.2 hd1.2) (sub_nonneg.2 hi2.2),
        mul_nonneg (sub_nonneg.2 hd1.1) (sub_nonneg.2 hi2.2),
        mul_nonneg (sub_nonneg.2 hd1.2) (sub_nonneg.2 hi2.1)]
  have hq : (-0.000239694 : ℝ) ≤ del1 * (0.5 * (2.0 / 3.0) + del1 * (1.0 + 134.0 / 81.0 * del1)) ∧
      del1 * (0.5 * (2.0 / 3.0) + del1 * (1.0 + 134.0 / 81.0 * del1)) ≤ 0.000478717 := by
    constructor <;>
      nlinarith only [hd1.1, hd1.2, hip.1, hip.2,
        mul_nonneg (sub_nonneg.2 hd1.1) (sub_nonneg.2 hip.1),
        mul_nonneg (sub_nonneg.2 hd1.2) (sub_nonneg.2 hip.2),
        mul_nonneg (sub_nonneg.2 hd1.1) (sub_nonneg.2 hip.2),
        mul_nonneg (sub_nonneg.2 hd1.2) (sub_nonneg.2 hip.1)]
  have haob : (1.06529 : ℝ) ≤ ao ∧ ao ≤ 1.06644 := by
    rw [hao]
    constructor <;>
      nlinarith only [ha1.1, ha1.2, hq.1, hq.2,
        mul_nonneg (sub_nonneg.2 ha1.1) (sub_nonneg.2 hq.1),
        mul_nonneg (sub_nonneg.2 ha1.2) (sub_nonneg.2 hq.2),
        mul_nonneg (sub_nonneg.2 ha1.1) (sub_nonneg.2 hq.2),
        mul_nonneg (sub_nonneg.2 ha1.2) (sub_nonneg.2 hq.1)]
  have haosq : (1.134842 : ℝ) ≤ ao * ao := by nlinarith only [haob.1, sq_nonneg (ao - 1.06529)]
  have haosqp : (0 : ℝ) < ao * ao := by nlinarith only [haob.1, sq_nonneg (ao - 1.06529)]
  have hdob : (-0.000717 : ℝ) ≤ delo ∧ delo ≤ 0.001432 := by
    rw [hdelo]
    constructor
    · rw [le_div_iff haosqp]
      nlinarith only [htb.1, haosq]
    · rw [div_le_iff haosqp]
      nlinarith only [htb.2, haosq]
  have hdenp : (0 : ℝ) < 1.0 + delo := by linarith only [hdob.1]
  rw [hxnodp]
  constructor
  · rw [le_div_iff hdenp]
    nlinarith only [hxno.1, hdob.2]
  · rw [div_le_iff hdenp]
    nlinarith only [hxno.2, hdob.1]

set_option maxHeartbeats 1000000 in
/-- Numeric bracketing of the ISS fixture's corrected mean motion. -/
lemma iss_mean_motion_bounds :
    (0.0674872 : ℝ) ≤ (convert_satellite_data issTle).mean_motion ∧
      (convert_satellite_data issTle).mean_motion ≤ 0.0676327 := by
  have hpmm : parse_real issTle.line2 53 11 = (1548913328 : ℚ) * 10 ^ (-8 : ℤ) :=
    parse_real_eval (by decide)
  have hpecc : parse_real issTle.line2 27 7 = (6738 : ℚ) * 10 ^ (0 : ℤ) :=
    parse_real_eval (by decide)
  have hcast1 : (((1548913328 : ℚ) * 10 ^ (-8 : ℤ) : ℚ) : ℝ) = 15.48913328 := by
    push_cast
    norm_num
  have hcast2 : (((6738 : ℚ) * 10 ^ (0 : ℤ) : ℚ) : ℝ) = 6738 := by
    push_cast
    norm_num
  have hpi1 := Real.pi_gt_d20
  have hpi2 := Real.pi_lt_d20
  have hxnoEb : (0.0675840 : ℝ) ≤ (15.48913328 : ℝ) * TWOPI / XMNPDA ∧
      (15.48913328 : ℝ) * TWOPI / XMNPDA ≤ 0.0675842 := by
    simp only [TWOPI, XMNPDA]
    constructor <;> nlinarith only [hpi1, hpi2]
  have hxnoEp : (0 : ℝ) < (15.48913328 : ℝ) * TWOPI / XMNPDA := by
    linarith only [hxnoEb.1]
  have hxke : XKE = 0.0743669161 := rfl
  have hb1 : (1.10035 : ℝ) ≤ XKE / ((15.48913328 : ℝ) * TWOPI / XMNPDA) ∧
      XKE / ((15.48913328 : ℝ) * TWOPI / XMNPDA) ≤ 1.10040 := by
    rw [hxke]
    constructor
    · rw [le_div_iff hxnoEp]
      nlinarith only [hxnoEb.2]
    · rw [div_le_iff hxnoEp]
      nlinarith only [hxnoEb.1]
  have hb1p : (0 : ℝ) < XKE / ((15.48913328 : ℝ) * TWOPI / XMNPDA) :=
    lt_of_lt_of_le (by norm_num) hb1.1
  refine brouwer_bound_chain _ _ _ _ _ _ _ _ _ rfl rfl rfl rfl rfl
    ⟨sq_nonneg _, ?_⟩ ?_ ?_ ?_
  · nlinarith only
      [Real.neg_one_le_cos (radians ((parse_real issTle.line2 9 8 : ℚ) : ℝ)),
        Real.cos_le_one (radians ((parse_real issTle.line2 9 8 : ℚ) : ℝ))]
  · rw [hpmm, hcast1]
    exact hxnoEb
  · show (1.06581 : ℝ) ≤ (XKE / (((parse_real issTle.line2 53 11 : ℚ) : ℝ) * TWOPI / XMNPDA)) ^
        TOTHIRD ∧ _ ≤ (1.06591 : ℝ)
    rw [hpmm, hcast1]
    simp only [TOTHIRD]
    exact rpow23_bounds hb1p (by norm_num)
      (by nlinarith only [hb1.1, sq_nonneg (XKE / ((15.48913328 : ℝ) * TWOPI / XMNPDA) - 1.10035)])
      (by nlinarith only [hb1.2, hb1p])
  · show (0.9999990 : ℝ) ≤ (1.0 - (((parse_real issTle.line2 27 7 : ℚ) : ℝ) * 1e-7) ^ 2) ^
        (1.5 : ℝ) ∧ _ ≤ (1 : ℝ)
    rw [hpecc, hcast2]
    have h := rpow15_bounds (show (0 : ℝ) < 1.0 - ((6738 : ℝ) * 1e-7) ^ 2 by norm_num)
      (show (1.0 : ℝ) - ((6738 : ℝ) * 1e-7) ^ 2 ≤ 1 by norm_num)
    exact ⟨le_trans (by norm_num) h.1, h.2⟩

/-- The ISS fixture's parsed eccentricity, exactly. -/
lemma iss_eccentricity : (convert_satellite_data issTle).eccentricity = 0.0006738 := by
  have hpecc : parse_real issTle.line2 27 7 = (6738 : ℚ) * 10 ^ (0 : ℤ) :=
    parse_real_eval (by decide)
  show ((parse_real issTle.line2 27 7 : ℚ) : ℝ) * 1e-7 = 0.0006738
  rw [hpecc]
  push_cast
  norm_num

/-- The squared magnitudes of `sgp4`'s position and velocity, through
the norm-preserving ECI rotation: position reduces to the radius `r`
(for any eccentric anomaly), velocity to the radial and transverse
rates. -/
lemma sgp4_mag_sq (tsince : ℝ) (el : OrbitalElements) (a e v r rd rfd E : ℝ)
    (hE : E = solve_kepler (sgp4_mean_anomaly tsince el) el.eccentricity 1e-8)
    (ha : a = (XKE / el.mean_motion) ^ ((2.0 : ℝ) / 3.0))
    (he : e = el.eccentricity)
    (hv : v = 2.0 * atan2 (Real.sqrt (1.0 + e) * Real.sin (E / 2.0))
      (Real.sqrt (1.0 - e) * Real.cos (E / 2.0)))
    (hr : r = a * (1.0 - e * Real.cos E))
    (hrd : rd = XKE * Real.sqrt a * e * Real.sin E / r)
    (hrfd : rfd = XKE * Real.sqrt (a * (1.0 - e * e)) / (r * r)) :
    (sgp4 tsince el).position.x ^ 2 + (sgp4 tsince el).position.y ^ 2 +
        (sgp4 tsince el).position.z ^ 2 = r ^ 2 * XKMPER ^ 2 ∧
      (sgp4 tsince el).velocity.x ^ 2 + (sgp4 tsince el).velocity.y ^ 2 +
        (sgp4 tsince el).velocity.z ^ 2 =
          (rd ^ 2 + (r * rfd) ^ 2) * (XKMPER / 60.0) ^ 2 := by
  subst hE ha he hv hr hrd hrfd
  simp only [sgp4]
  have hO := Real.sin_sq_add_cos_sq el.raan
  have ho := Real.sin_sq_add_cos_sq el.arg_perigee
  have hi := Real.sin_sq_add_cos_sq el.inclination
  have hpy := Real.sin_sq_add_cos_sq (2.0 * atan2
    (Real.sqrt (1.0 + el.eccentricity) *
      Real.sin (solve_kepler (sgp4_mean_anomaly tsince el) el.eccentricity 1e-8 / 2.0))
    (Real.sqrt (1.0 - el.eccentricity) *
      Real.cos (solve_kepler (sgp4_mean_anomaly tsince el) el.eccentricity 1e-8 / 2.0)))
  constructor
  · have hrot := rot_norm
      (((XKE / el.mean_motion) ^ ((2.0 : ℝ) / 3.0) *
          (1.0 - el.eccentricity *
            Real.cos (solve_kepler (sgp4_mean_anomaly tsince el) el.eccentricity 1e-8))) *
        Real.cos (2.0 * atan2
          (Real.sqrt (1.0 + el.eccentricity) *
            Real.sin (solve_kepler (sgp4_mean_anomaly tsince el) el.eccentricity 1e-8 / 2.0))
          (Real.sqrt (1.0 - el.eccentricity) *
            Real.cos (solve_kepler (sgp4_mean_anomaly tsince el) el.eccentricity 1e-8 / 2.0))))
      (((XKE / el.mean_motion) ^ ((2.0 : ℝ) / 3.0) *
          (1.0 - el.eccentricity *
            Real.cos (solve_kepler (sgp4_mean_anomaly tsince el) el.eccentricity 1e-8))) *
        Real.sin (2.0 * atan2
          (Real.sqrt (1.0 + el.eccentricity) *
            Real.sin (solve_kepler (sgp4_mean_anomaly tsince el) el.eccentricity 1e-8 / 2.0))
          (Real.sqrt (1.0 - el.eccentricity) *
            Real.cos (solve_kepler (sgp4_mean_anomaly tsince el) el.eccentricity 1e-8 / 2.0))))
      (Real.cos el.raan) (Real.sin el.raan) (Real.cos el.arg_perigee) (Real.sin el.arg_perigee)
      (Real.cos el.inclination) (Real.sin el.inclination) hO ho hi
    linear_combination (XKMPER ^ 2) * hrot +
      (((XKE / el.mean_motion) ^ ((2.0 : ℝ) / 3.0) *
          (1.0 - el.eccentricity *
            Real.cos (solve_kepler (sgp4_mean_anomaly tsince el) el.eccentricity 1e-8))) ^ 2 *
        XKMPER ^ 2) * hpy
  · set A := XKE * Real.sqrt ((XKE / el.mean_motion) ^ ((2.0 : ℝ) / 3.0)) * el.eccentricity *
      Real.sin (solve_kepler (sgp4_mean_anomaly tsince el) el.eccentricity 1e-8) /
        ((XKE / el.mean_motion) ^ ((2.0 : ℝ) / 3.0) *
          (1.0 - el.eccentricity *
            Real.cos (solve_kepler (sgp4_mean_anomaly tsince el) el.eccentricity 1e-8)))
      with hA
    set R := (XKE / el.mean_motion) ^ ((2.0 : ℝ) / 3.0) *
        (1.0 - el.eccentricity *
          Real.cos (solve_kepler (sgp4_mean_anomaly tsince el) el.eccentricity 1e-8)) *
      (XKE * Real.sqrt ((XKE / el.mean_motion) ^ ((2.0 : ℝ) / 3.0) *
          (1.0 - el.eccentricity * el.eccentricity)) /
        ((XKE / el.mean_motion) ^ ((2.0 : ℝ) / 3.0) *
            (1.0 - el.eccentricity *
              Real.cos (solve_kepler (sgp4_mean_anomaly tsince el) el.eccentricity 1e-8)) *
          ((XKE / el.mean_motion) ^ ((2.0 : ℝ) / 3.0) *
            (1.0 - el.eccentricity *
              Real.cos (solve_kepler (sgp4_mean_anomaly tsince el) el.eccentricity 1e-8)))))
      with hR
    have hrot := rot_norm
      (A * Real.cos (2.0 * atan2
          (Real.sqrt (1.0 + el.eccentricity) *
            Real.sin (solve_kepler (sgp4_mean_anomaly tsince el) el.eccentricity 1e-8 / 2.0))
          (Real.sqrt (1.0 - el.eccentricity) *
            Real.cos (solve_kepler (sgp4_mean_anomaly tsince el) el.eccentricity 1e-8 / 2.0))) -
        R * Real.sin (2.0 * atan2
          (Real.sqrt (1.0 + el.eccentricity) *
            Real.sin (solve_kepler (sgp4_mean_anomaly tsince el) el.eccentricity 1e-8 / 2.0))
          (Real.sqrt (1.0 - el.eccentricity) *
            Real.cos (solve_kepler (sgp4_mean_anomaly tsince el) el.eccentricity 1e-8 / 2.0))))
      (A * Real.sin (2.0 * atan2
          (Real.sqrt (1.0 + el.eccentricity) *
            Real.sin (solve_kepler (sgp4_mean_anomaly tsince el) el.eccentricity 1e-8 / 2.0))
          (Real.sqrt (1.0 - el.eccentricity) *
            Real.cos (solve_kepler (sgp4_mean_anomaly tsince el) el.eccentricity 1e-8 / 2.0))) +
        R * Real.cos (2.0 * atan2
          (Real.sqrt (1.0 + el.eccentricity) *
            Real.sin (solve_kepler (sgp4_mean_anomaly tsince el) el.eccentricity 1e-8 / 2.0))
          (Real.sqrt (1.0 - el.eccentricity) *
            Real.cos (solve_kepler (sgp4_mean_anomaly tsince el) el.eccentricity 1e-8 / 2.0))))
      (Real.cos el.raan) (Real.sin el.raan) (Real.cos el.arg_perigee) (Real.sin el.arg_perigee)
      (Real.cos el.inclination) (Real.sin el.inclination) hO ho hi
    linear_combination ((XKMPER / 60.0) ^ 2) * hrot + ((A ^ 2 + R ^ 2) * (XKMPER / 60.0) ^ 2) * hpy

set_option maxHeartbeats 1000000 in
/-- C6.  For the ISS-like fixture, `sgp4(0.0, elements)` returns a
position of magnitude between 6500 and 7200 km and a velocity of
magnitude between 7.0 and 8.0 km/s. -/
theorem c6_iss_state_vector :
    ((6500 : ℝ) ≤ (sgp4 0 (convert_satellite_data issTle)).position.mag ∧
        (sgp4 0 (convert_satellite_data issTle)).position.mag ≤ 7200) ∧
      (7 : ℝ) ≤ (sgp4 0 (convert_satellite_data issTle)).velocity.mag ∧
        (sgp4 0 (convert_satellite_data issTle)).velocity.mag ≤ 8 := by
  have hmm := iss_mean_motion_bounds
  have hecc := iss_eccentricity
  set el := convert_satellite_data issTle with hel
  set aV := (XKE / el.mean_motion) ^ ((2.0 : ℝ) / 3.0) with haV
  set EV := solve_kepler (sgp4_mean_anomaly 0 el) el.eccentricity 1e-8 with hEV
  set rV := aV * (1.0 - el.eccentricity * Real.cos EV) with hrV
  set rdV := XKE * Real.sqrt aV * el.eccentricity * Real.sin EV / rV with hrdV
  set rfdV := XKE * Real.sqrt (aV * (1.0 - el.eccentricity * el.eccentricity)) / (rV * rV)
    with hrfdV
  have hmag := sgp4_mag_sq 0 el aV el.eccentricity _ rV rdV rfdV EV hEV haV rfl rfl hrV hrdV
    hrfdV
  have hmmp : (0 : ℝ) < el.mean_motion := lt_of_lt_of_le (by norm_num) hmm.1
  have hb2 : (1.09956 : ℝ) ≤ XKE / el.mean_motion ∧ XKE / el.mean_motion ≤ 1.10195 := by
    rw [show XKE = (0.0743669161 : ℝ) from rfl]
    constructor
    · rw [le_div_iff hmmp]
      nlinarith only [hmm.2]
    · rw [div_le_iff hmmp]
      nlinarith only [hmm.1]
  have hb2p : (0 : ℝ) < XKE / el.mean_motion := lt_of_lt_of_le (by norm_num) hb2.1
  have haB : (1.06530 : ℝ) ≤ aV ∧ aV ≤ 1.06687 := by
    rw [haV]
    exact rpow23_bounds hb2p (by norm_num)
      (by nlinarith only [hb2.1, sq_nonneg (XKE / el.mean_motion - 1.09956)])
      (by nlinarith only [hb2.2, hb2p])
  have hcE1 := Real.neg_one_le_cos EV
  have hcE2 := Real.cos_le_one EV
  have haux1 : (0.9993262 : ℝ) ≤ 1.0 - 0.0006738 * Real.cos EV := by
    nlinarith only [hcE2]
  have haux2 : (1.0 : ℝ) - 0.0006738 * Real.cos EV ≤ 1.0006738 := by
    nlinarith only [hcE1]
  have hrB : (1.06458 : ℝ) ≤ rV ∧ rV ≤ 1.06759 := by
    rw [hrV, hecc]
    constructor <;>
      nlinarith only [haB.1, haB.2, haux1, haux2,
        mul_nonneg (sub_nonneg.2 haB.1) (sub_nonneg.2 haux1),
        mul_nonneg (sub_nonneg.2 haB.2) (sub_nonneg.2 haux2),
        mul_nonneg (sub_nonneg.2 haB.1) (sub_nonneg.2 haux2),
        mul_nonneg (sub_nonneg.2 haB.2) (sub_nonneg.2 haux1)]
  have hr2 : (1.13333 : ℝ) ≤ rV ^ 2 ∧ rV ^ 2 ≤ 1.13975 := by
    constructor <;>
      nlinarith only [hrB.1, hrB.2, sq_nonneg (rV - 1.06458), sq_nonneg (rV - 1.06759)]
  have hpos : (sgp4 0 el).position.mag = Real.sqrt (rV ^ 2 * XKMPER ^ 2) := by
    unfold Vec3.mag
    rw [hmag.1]
  have hap : (0 : ℝ) < aV := lt_of_lt_of_le (by norm_num) haB.1
  have hrp : (0 : ℝ) < rV := lt_of_lt_of_le (by norm_num) hrB.1
  have hsqa : Real.sqrt aV ^ 2 = aV := Real.sq_sqrt hap.le
  set pV := aV * (1.0 - el.eccentricity * el.eccentricity) with hpV
  have hpB : (1.065299 : ℝ) ≤ pV ∧ pV ≤ 1.06687 := by
    rw [hpV, hecc]
    constructor <;> nlinarith only [haB.1, haB.2]
  have hpp : (0 : ℝ) < pV := lt_of_lt_of_le (by norm_num) hpB.1
  have hsqp : Real.sqrt pV ^ 2 = pV := Real.sq_sqrt hpp.le
  have hrd2 : rdV ^ 2 ≤ 2.5e-9 := by
    rw [hrdV, hecc, div_pow]
    have hs2 : Real.sin EV ^ 2 ≤ 1 := Real.sin_sq_le_one EV
    have hnum : (XKE * Real.sqrt aV * 0.0006738 * Real.sin EV) ^ 2 ≤
        (0.0743669161 : ℝ) ^ 2 * 1.06687 * 0.0006738 ^ 2 := by
      have hexp : (XKE * Real.sqrt aV * 0.0006738 * Real.sin EV) ^ 2 =
          XKE ^ 2 * Real.sqrt aV ^ 2 * 0.0006738 ^ 2 * Real.sin EV ^ 2 := by ring
      rw [hexp, hsqa, show XKE = (0.0743669161 : ℝ) from rfl]
      nlinarith only [haB.1, haB.2, hs2, sq_nonneg (Real.sin EV),
        mul_nonneg (sub_nonneg.2 haB.1) (sub_nonneg.2 (sq_nonneg (Real.sin EV))),
        mul_nonneg (sub_nonneg.2 haB.2) (sub_nonneg.2 hs2)]
    rw [div_le_iff (by positivity : (0 : ℝ) < rV ^ 2)]
    nlinarith only [hnum, hr2.1]
  have hg2eq : (rV * rfdV) ^ 2 = XKE ^ 2 * pV / rV ^ 2 := by
    obtain ⟨s, hs, hs2⟩ : ∃ s, s = Real.sqrt pV ∧ s ^ 2 = pV := ⟨_, rfl, hsqp⟩
    obtain ⟨R, hR⟩ : ∃ R, R = rV := ⟨_, rfl⟩
    have hRpos : (0 : ℝ) < R := by rw [hR]; exact hrp
    rw [hrfdV, ← hs, ← hs2, ← hR]
    have hRne : R ≠ 0 := hRpos.ne'
    field_simp
    ring
  have hg2 : (0.005169 : ℝ) ≤ (rV * rfdV) ^ 2 ∧ (rV * rfdV) ^ 2 ≤ 0.005214 := by
    rw [hg2eq, show XKE = (0.0743669161 : ℝ) from rfl]
    constructor
    · rw [le_div_iff (by positivity : (0 : ℝ) < rV ^ 2)]
      nlinarith only [hr2.2, hpB.1]
    · rw [div_le_iff (by positivity : (0 : ℝ) < rV ^ 2)]
      nlinarith only [hr2.1, hpB.2]
  have hv2 : (0.005169 : ℝ) ≤ rdV ^ 2 + (rV * rfdV) ^ 2 ∧
      rdV ^ 2 + (rV * rfdV) ^ 2 ≤ 0.0052140025 := by
    constructor
    · linarith [hg2.1, sq_nonneg rdV]
    · linarith [hg2.2, hrd2]
  have hvel : (sgp4 0 el).velocity.mag =
      Real.sqrt ((rdV ^ 2 + (rV * rfdV) ^ 2) * (XKMPER / 60.0) ^ 2) := by
    unfold Vec3.mag
    rw [hmag.2]
  refine ⟨⟨?_, ?_⟩, ?_, ?_⟩
  · rw [hpos]
    refine (Real.le_sqrt (by norm_num) (by positivity)).mpr ?_
    rw [show XKMPER = (6378.135 : ℝ) from rfl]
    nlinarith only [hr2.1]
  · rw [hpos]
    have hS : rV ^ 2 * XKMPER ^ 2 ≤ (7200 : ℝ) ^ 2 := by
      rw [show XKMPER = (6378.135 : ℝ) from rfl]
      nlinarith only [hr2.2]
    have h := Real.sqrt_le_sqrt hS
    rwa [Real.sqrt_sq (by norm_num : (0 : ℝ) ≤ 7200)] at h
  · rw [hvel]
    refine (Real.le_sqrt (by norm_num) (by positivity)).mpr ?_
    rw [show XKMPER = (6378.135 : ℝ) from rfl]
    nlinarith only [hv2.1]
  · rw [hvel]
    have hS : (rdV ^ 2 + (rV * rfdV) ^ 2) * (XKMPER / 60.0) ^ 2 ≤ (8 : ℝ) ^ 2 := by
      rw [show XKMPER = (6378.135 : ℝ) from rfl]
      nlinarith only [hv2.2, hv2.1]
    have h := Real.sqrt_le_sqrt hS
    rwa [Real.sqrt_sq (by norm_num : (0 : ℝ) ≤ 8)] at h
